import Mathlib

/-!
Shallow embedding of the simulation core of `src/src/hooks/useSimulationState.ts`
(AI Avatar Arena).  Positions, orientations, distances and timestamps are
JavaScript numbers in the source; they are modelled as real numbers.  Fields
that the modelled logic never reads (display color, oracle provider/model
identifiers, API keys, the free-text system prompt, the event log and the
`isRunning` flag) are omitted from the record types; the oracle calls
themselves are modelled as explicit parameters.  String ids produced by the
source's `generateId` counter are modelled as distinct string literals.
-/

noncomputable section

open Real

/-- JavaScript `Math.round`: rounds half up (toward positive infinity). -/
def jsRound (x : ℝ) : ℤ := ⌊x + 1/2⌋

/-- JavaScript truncation toward zero, as used by the `%` operator. -/
def jsTrunc (x : ℝ) : ℤ := if 0 ≤ x then ⌊x⌋ else ⌈x⌉

/-- JavaScript remainder `a % n` on numbers: `a - n * trunc (a / n)`. -/
def jsMod (a n : ℝ) : ℝ := a - n * (jsTrunc (a / n) : ℝ)

/-- `{x, y}` plane coordinates (`Vector2` in `types`). -/
structure Vector2 where
  x : ℝ
  y : ℝ
deriving DecidableEq

/-- Board size `{width, height}`. -/
structure BoardSize where
  width : ℝ
  height : ℝ
deriving DecidableEq

/-- An axis-aligned rectangular obstacle (id, top-left `position`, `size`). -/
structure Obstacle where
  id : String
  position : Vector2
  size : Vector2
deriving DecidableEq

/-- A passive arena object (id, `position`, free-text `description`). -/
structure ArenaObject where
  id : String
  position : Vector2
  description : String
deriving DecidableEq

/-- Eyesight settings `{radius, angle}` (angle is the full cone, degrees). -/
structure Eyesight where
  radius : ℝ
  angle : ℝ
deriving DecidableEq

/-- Avatar settings; oracle-routing fields (provider/model/apiKey) and the
system prompt are omitted — the modelled logic only reads `rateLimit` and
`eyesight`. -/
structure AvatarSettings where
  rateLimit : ℝ
  eyesight : Eyesight
deriving DecidableEq

/-- Runtime avatar state.  `currentAction`, `conversationTarget`, `thought`
and `lastActionTime` are the optional runtime fields of the source's
`AvatarState`. -/
structure AvatarState where
  id : String
  position : Vector2
  orientation : ℝ
  settings : AvatarSettings
  nextDecisionTime : ℝ
  currentAction : Option String := none
  conversationTarget : Option String := none
  thought : Option String := none
  lastActionTime : Option ℝ := none
deriving DecidableEq

/-- One message of a conversation log. -/
structure ConversationMessage where
  avatarId : String
  text : String
  timestamp : ℝ
deriving DecidableEq

/-- A two-party conversation; `endTime = none` while the conversation is
active. -/
structure Conversation where
  id : String
  participants : List String
  messages : List ConversationMessage
  startTime : ℝ
  endTime : Option ℝ := none
deriving DecidableEq

/-- Simulation settings (`AppState['simulation']`). -/
structure SimulationSettings where
  mode : String
  boardSize : BoardSize
  turnDuration : ℝ
  timeScale : ℝ
deriving DecidableEq

/-- The world snapshot (`AppState`), without the event log / running flag. -/
structure AppState where
  avatars : List AvatarState
  objects : List ArenaObject
  obstacles : List Obstacle
  conversations : List Conversation
  simulation : SimulationSettings
deriving DecidableEq

/-- `INITIAL_AVATAR_SETTINGS` (modelled fields only). -/
def INITIAL_AVATAR_SETTINGS : AvatarSettings :=
  { rateLimit := 1000, eyesight := { radius := 100, angle := 180 } }

/-- The first initial avatar (at (50,50), facing right). -/
def initialAvatar0 : AvatarState :=
  { id := "avatar-0", position := ⟨50, 50⟩, orientation := 0,
    settings := INITIAL_AVATAR_SETTINGS, nextDecisionTime := 0 }

/-- The second initial avatar (at (450,450), facing left, slower rate). -/
def initialAvatar1 : AvatarState :=
  { id := "avatar-1", position := ⟨450, 450⟩, orientation := 180,
    settings := { INITIAL_AVATAR_SETTINGS with rateLimit := 1500 },
    nextDecisionTime := 0 }

/-- `createInitialState`: two avatars, one object, two obstacles, a
500×500 time-based board.  Generated ids are modelled as literals. -/
def createInitialState : AppState :=
  { avatars := [initialAvatar0, initialAvatar1],
    objects := [ { id := "object-2", position := ⟨250, 250⟩,
                   description := "A curious glowing orb." } ],
    obstacles :=
      [ { id := "obstacle-3", position := ⟨100, 100⟩, size := ⟨10, 150⟩ },
        { id := "obstacle-4", position := ⟨300, 300⟩, size := ⟨150, 10⟩ } ],
    conversations := [],
    simulation := { mode := "time-based", boardSize := ⟨500, 500⟩,
                    turnDuration := 1000, timeScale := 1 } }

/-- `distance`: Euclidean distance between two points. -/
def distance (p1 p2 : Vector2) : ℝ :=
  Real.sqrt ((p1.x - p2.x) * (p1.x - p2.x) + (p1.y - p2.y) * (p1.y - p2.y))

/-- `isPointInBounds`: containment in the board rectangle, inclusive. -/
def isPointInBounds (point : Vector2) (boardSize : BoardSize) : Prop :=
  point.x ≥ 0 ∧ point.x ≤ boardSize.width ∧
  point.y ≥ 0 ∧ point.y ≤ boardSize.height

instance (point : Vector2) (boardSize : BoardSize) :
    Decidable (isPointInBounds point boardSize) := by
  unfold isPointInBounds; infer_instance

/-- `resizeBoard`: clamp the requested size to at least 100×100, clamp
avatars 8 units inside the new bounds and objects 5 units inside, clamp each
obstacle's top-left corner to `[0, size - extent]`, then drop obstacles whose
(clamped) corner is not strictly inside the new bounds. -/
def resizeBoard (newSize : BoardSize) (prev : AppState) : AppState :=
  let clampedWidth := max 100 newSize.width
  let clampedHeight := max 100 newSize.height
  let finalSize : BoardSize := ⟨clampedWidth, clampedHeight⟩
  { prev with
    simulation := { prev.simulation with boardSize := finalSize },
    avatars := prev.avatars.map fun a =>
      { a with position :=
          ⟨min (max a.position.x (0 + 8)) (finalSize.width - 8),
           min (max a.position.y (0 + 8)) (finalSize.height - 8)⟩ },
    objects := prev.objects.map fun o =>
      { o with position :=
          ⟨min (max o.position.x (0 + 5)) (finalSize.width - 5),
           min (max o.position.y (0 + 5)) (finalSize.height - 5)⟩ },
    obstacles := (prev.obstacles.map fun ob =>
      { ob with position :=
          ⟨min (max ob.position.x 0) (finalSize.width - ob.size.x),
           min (max ob.position.y 0) (finalSize.height - ob.size.y)⟩ }).filter
      fun ob => decide (ob.position.x < finalSize.width ∧
                        ob.position.y < finalSize.height) }

/-- `removeAvatar`: rejected outright when only two avatars remain;
otherwise ends every active conversation of the removed avatar and clears
the conversation state of its partners. -/
def removeAvatar (now : ℝ) (avatarId : String) (prev : AppState) : AppState :=
  if prev.avatars.length ≤ 2 then prev
  else
    let nextConversations := prev.conversations.map fun c =>
      if avatarId ∈ c.participants ∧ c.endTime = none then
        { c with endTime := some now }
      else c
    let partnersToReset :=
      (prev.conversations.filter fun c =>
        decide (avatarId ∈ c.participants ∧ c.endTime = none)).flatMap
        fun c => c.participants.filter fun p => p ≠ avatarId
    let nextAvatars :=
      (prev.avatars.filter fun a => a.id ≠ avatarId).map fun a =>
        if a.id ∈ partnersToReset then
          { a with conversationTarget := none, currentAction := none }
        else a
    { prev with avatars := nextAvatars, conversations := nextConversations }

/-- `addAvatar`: rejected at the 10-avatar limit; otherwise appends a fresh
avatar with default settings.  The random spawn position/orientation and the
generated id are modelled as parameters. -/
def addAvatar (newId : String) (pos : Vector2) (orient : ℝ)
    (prev : AppState) : AppState :=
  if prev.avatars.length ≥ 10 then prev
  else
    { prev with avatars := prev.avatars ++
        [ { id := newId, position := pos, orientation := orient,
            settings := INITIAL_AVATAR_SETTINGS, nextDecisionTime := 0 } ] }

/-- `addObject`. -/
def addObject (newId : String) (pos : Vector2) (prev : AppState) : AppState :=
  { prev with objects := prev.objects ++
      [ { id := newId, position := pos, description := "A new object" } ] }

/-- `removeObject`. -/
def removeObject (objectId : String) (prev : AppState) : AppState :=
  { prev with objects := prev.objects.filter fun o => o.id ≠ objectId }

/-- `updateObjectDescription` (empty description falls back to "An object"). -/
def updateObjectDescription (objectId description : String)
    (prev : AppState) : AppState :=
  { prev with objects := prev.objects.map fun o =>
      if o.id = objectId then
        { o with description := if description = "" then "An object"
                                else description }
      else o }

/-- `addObstacle`. -/
def addObstacle (newId : String) (pos size : Vector2)
    (prev : AppState) : AppState :=
  { prev with obstacles := prev.obstacles ++
      [ { id := newId, position := pos, size := size } ] }

/-- `removeObstacle`. -/
def removeObstacle (obstacleId : String) (prev : AppState) : AppState :=
  { prev with obstacles := prev.obstacles.filter fun o => o.id ≠ obstacleId }

/-! ### Perception engine (`getSensoryInput` and its inner `isVisible`) -/

/-- `Math.atan2 dy dx` on real inputs, with value in `(-π, π]` and
`atan2 0 0 = 0`, matching JavaScript on inputs without negative zero. -/
def atan2 (y x : ℝ) : ℝ := Complex.arg ⟨x, y⟩

/-- The source normalizes a relative angle with
`while (a > π) a -= 2π; while (a ≤ -π) a += 2π;`: the result is the unique
value in `(-π, π]` congruent to the input modulo `2π`, which is what this
function computes directly. -/
def normHalfOpenPi (x : ℝ) : ℝ := x - 2 * π * (⌈x / (2 * π) - 1/2⌉ : ℤ)

/-- The inner `isVisible` closure of `getSensoryInput`: returns the
visibility verdict and the raw distance.  The source also iterates over
`obstacles` with a heuristic line-of-sight check, but the blocking
`return { visible: false, dist }` inside that loop is commented out, so the
loop has no effect and the `obstacles` argument is unused here. -/
def isVisible (avatar : AvatarState) (obstacles : List Obstacle)
    (targetPos : Vector2) : Bool × ℝ :=
  let radius := avatar.settings.eyesight.radius
  let orientationRad := avatar.orientation * (π / 180)
  let halfAngleRad := (avatar.settings.eyesight.angle / 2) * (π / 180)
  let dx := targetPos.x - avatar.position.x
  let dy := targetPos.y - avatar.position.y
  let dist := Real.sqrt (dx * dx + dy * dy)
  if dist > radius ∨ dist = 0 then (false, dist)
  else
    let angleToTarget := atan2 dy dx
    let relativeAngle := normHalfOpenPi (angleToTarget - orientationRad)
    if |relativeAngle| ≤ halfAngleRad then (true, dist)
    else (false, dist)

/-- A `visibleAvatars` entry (position passed through, distance rounded). -/
structure VisibleAvatar where
  id : String
  position : Vector2
  dist : ℤ
deriving DecidableEq

/-- A `visibleObjects` entry. -/
structure VisibleObject where
  id : String
  position : Vector2
  description : String
  dist : ℤ
deriving DecidableEq

/-- A `visibleObstacles` entry (closest visible sampled point's distance). -/
structure VisibleObstacle where
  id : String
  position : Vector2
  size : Vector2
  dist : ℤ
deriving DecidableEq

/-- The sensory snapshot assembled by `getSensoryInput` (oracle-routing
fields omitted). -/
structure SensoryInput where
  position : ℤ × ℤ
  orientation : ℤ
  currentAction : Option String
  conversationTarget : Option String
  visibleAvatars : List VisibleAvatar
  visibleObjects : List VisibleObject
  visibleObstacles : List VisibleObstacle
  boardSize : BoardSize
deriving DecidableEq

/-- `getSensoryInput`: builds the per-avatar perception snapshot.  The
source's `forEach`+`push` loops are modelled as `filterMap`, preserving
order; an obstacle's `closestVisibleDist` accumulator is modelled as the
fold of `min` over its visible sampled points. -/
def getSensoryInput (avatar : AvatarState) (allAvatars : List AvatarState)
    (objects : List ArenaObject) (obstacles : List Obstacle)
    (boardSize : BoardSize) : SensoryInput :=
  let visibleAvatars := allAvatars.filterMap fun other =>
    if other.id = avatar.id then none
    else
      let r := isVisible avatar obstacles other.position
      if r.1 then some ⟨other.id, other.position, jsRound r.2⟩ else none
  let visibleObjects := objects.filterMap fun obj =>
    let r := isVisible avatar obstacles obj.position
    if r.1 then some ⟨obj.id, obj.position, obj.description, jsRound r.2⟩
    else none
  let visibleObstacles := obstacles.filterMap fun obs =>
    let pointsToCheck : List Vector2 :=
      [ obs.position,
        ⟨obs.position.x + obs.size.x, obs.position.y⟩,
        ⟨obs.position.x, obs.position.y + obs.size.y⟩,
        ⟨obs.position.x + obs.size.x, obs.position.y + obs.size.y⟩,
        ⟨obs.position.x + obs.size.x / 2, obs.position.y + obs.size.y / 2⟩ ]
    let visDists := pointsToCheck.filterMap fun point =>
      let r := isVisible avatar obstacles point
      if r.1 then some r.2 else none
    match visDists with
    | [] => none
    | d :: ds => some ⟨obs.id, obs.position, obs.size, jsRound (ds.foldl min d)⟩
  { position := (jsRound avatar.position.x, jsRound avatar.position.y),
    orientation := jsRound avatar.orientation,
    currentAction := avatar.currentAction,
    conversationTarget := avatar.conversationTarget,
    visibleAvatars := visibleAvatars,
    visibleObjects := visibleObjects,
    visibleObstacles := visibleObstacles,
    boardSize := boardSize }

/-! ### Action resolver (`executeDecision`) -/

/-- The parameters object of an oracle decision. -/
structure LLMParams where
  angle : Option ℝ := none
  dist : Option ℝ := none
  targetId : Option String := none
  message : Option String := none
  duration : Option ℝ := none
deriving DecidableEq

/-- An oracle decision (`LLMDecision`); the action is the source's string
tag. -/
structure LLMDecision where
  action : String
  parameters : Option LLMParams := none
  thought : Option String := none
deriving DecidableEq

/-- Outcome of the (external) Interaction Oracle call made during
`interact_object` resolution, modelled as an explicit parameter. -/
inductive OracleOutcome where
  | success (reaction : String)
  | failure (message : String)
deriving DecidableEq

/-- JavaScript `a || b` on optional strings (empty string is falsy). -/
def jsOrString (a b : Option String) : Option String :=
  match a with
  | some s => if s = "" then b else some s
  | none => b

/-- The recurring source pattern
`(finalThought ? finalThought + " " : "")`. -/
def thoughtAndSpace (t : Option String) : String :=
  match t with
  | some s => if s = "" then "" else s ++ " "
  | none => ""

/-- Append a parenthesized annotation to the rationale text, as the source
does with `finalThought = (finalThought ? finalThought + " " : "") + note`. -/
def annotate (t : Option String) (note : String) : Option String :=
  some (thoughtAndSpace t ++ note)

/-- JavaScript string interpolation of a possibly-undefined value. -/
def optShow (o : Option String) : String := o.getD "undefined"

/-- The pre-`setState` phase of `executeDecision`: computes the initial
rationale text, and for `interact_object` performs the object lookup and
the Interaction Oracle call, rewriting the action to `idle` with a 500 ms
duration in every branch; for `think` rewrites the action to `thinking`.
Returns (updateAction, updateParams, finalThought). -/
def preResolve (prev : AppState) (avatarId : String) (decision : LLMDecision)
    (oracle : OracleOutcome) : String × Option LLMParams × Option String :=
  let finalThought := jsOrString decision.thought
    (if decision.action = "think" then some "Thinking..." else none)
  if decision.action = "interact_object" then
    let targetObjectId := decision.parameters.bind (·.targetId)
    let targetObject := prev.objects.find? fun o => some o.id == targetObjectId
    let currentAvatar := prev.avatars.find? fun a => a.id == avatarId
    match targetObject, currentAvatar with
    | some obj, some _ =>
      let ft : Option String :=
        match oracle with
        | .success reaction =>
          some ("Interacted with " ++ optShow targetObjectId ++ ". Note: \"" ++
                obj.description ++ "\". Reaction: " ++ reaction)
        | .failure msg =>
          some ("Interacted with " ++ optShow targetObjectId ++
                ". Failed to process reaction: " ++ msg)
      ("idle", some { duration := some 500 }, ft)
    | _, _ =>
      ("idle", some { duration := some 500 },
       annotate finalThought
         ("(Target object " ++ optShow targetObjectId ++ " not found)"))
  else if decision.action = "think" then
    ("thinking", decision.parameters, finalThought)
  else
    (decision.action, decision.parameters, finalThought)

/-- The local variables mutated by the `switch` inside `setState`. -/
structure SwitchResult where
  updateAction : String
  finalThought : Option String
  newPosition : Vector2
  newOrientation : ℝ
  newConversationTarget : Option String
  nextAvatars : List AvatarState
  nextConversations : List Conversation

/-- JavaScript `array.slice (-n)`: the last `n` elements. -/
def jsSliceLast (n : ℕ) (l : List ConversationMessage) :
    List ConversationMessage :=
  l.drop (l.length - n)

/-- The conversation-lookup predicate used by `continue_conversation`,
`disengage_conversation` and `removeAvatar`:
`c.participants.includes(a) && c.participants.includes(b) && !c.endTime`. -/
def activeWith (a b : String) (c : Conversation) : Bool :=
  decide (a ∈ c.participants) && decide (b ∈ c.participants) &&
    decide (c.endTime = none)

/-- A `SwitchResult` that leaves everything unchanged apart from the
action label and rationale. -/
def unchangedResult (prev : AppState) (currentAvatar : AvatarState)
    (updateAction : String) (finalThought : Option String) : SwitchResult :=
  { updateAction := updateAction, finalThought := finalThought,
    newPosition := currentAvatar.position,
    newOrientation := currentAvatar.orientation,
    newConversationTarget := currentAvatar.conversationTarget,
    nextAvatars := prev.avatars, nextConversations := prev.conversations }

/-- The closest point of an obstacle rectangle to a point: the source's
`closestX`/`closestY` locals in the `move` case. -/
def closestPointOnRect (p : Vector2) (obs : Obstacle) : Vector2 :=
  ⟨max obs.position.x (min p.x (obs.position.x + obs.size.x)),
   max obs.position.y (min p.y (obs.position.y + obs.size.y))⟩

/-- The candidate position of a `move`: the source's `clampedDistance`,
`moveAngleRad`, `dx`, `dy`, `potentialPosition` locals — distance clamped to
`[-15, 15]`, applied along the avatar's current orientation (degrees to
radians). -/
def moveCandidate (ca : AvatarState) (moveDistance : ℝ) : Vector2 :=
  let clampedDistance := max (-15) (min 15 moveDistance)
  let moveAngleRad := ca.orientation * (π / 180)
  ⟨ca.position.x + clampedDistance * Real.cos moveAngleRad,
   ca.position.y + clampedDistance * Real.sin moveAngleRad⟩

/-- The `switch (updateAction)` of `executeDecision`'s `setState` callback.
`freshConvId` models the id generated for a newly created conversation. -/
def resolveSwitch (now : ℝ) (freshConvId : String) (prev : AppState)
    (avatarId : String) (currentAvatar : AvatarState) (updateAction : String)
    (updateParams : Option LLMParams) (finalThought : Option String) :
    SwitchResult :=
  if updateAction = "turn" then
    let turnAngle := (updateParams.bind (·.angle)).getD 0
    let snappedAngle : ℝ := (jsRound (turnAngle / 30) : ℤ) * 30
    { unchangedResult prev currentAvatar "turn" finalThought with
      newOrientation :=
        jsMod (currentAvatar.orientation + snappedAngle + 360) 360 }
  else if updateAction = "move" then
    let moveDistance := (updateParams.bind (·.dist)).getD 0
    let potentialPosition : Vector2 := moveCandidate currentAvatar moveDistance
    let collided : Bool :=
      if ¬ isPointInBounds potentialPosition prev.simulation.boardSize then
        true
      else if prev.obstacles.any (fun obs =>
          decide (distance potentialPosition
            (closestPointOnRect potentialPosition obs) < 8)) then
        true
      else prev.avatars.any fun other =>
        if other.id = avatarId then false
        else decide (distance potentialPosition other.position < 8 + 8)
    if collided then
      { unchangedResult prev currentAvatar "move"
          (annotate finalThought "(Movement blocked)") with
        newPosition := currentAvatar.position }
    else
      { unchangedResult prev currentAvatar "move" finalThought with
        newPosition := potentialPosition }
  else if updateAction = "interact_object" then
    -- Unreachable in practice: `preResolve` already rewrote the action to
    -- `idle`; the source nevertheless has this case and forces `idle`.
    unchangedResult prev currentAvatar "idle" finalThought
  else if updateAction = "initiate_conversation" then
    let targetAvatarId := updateParams.bind (·.targetId)
    let message := updateParams.bind (·.message)
    match targetAvatarId, message with
    | some tid, some msg =>
      if tid = "" ∨ msg = "" then
        unchangedResult prev currentAvatar "idle"
          (annotate finalThought "(Missing parameters for initiate_conversation)")
      else if currentAvatar.conversationTarget.isSome then
        unchangedResult prev currentAvatar "idle"
          (annotate finalThought
            "(Tried to initiate conversation while already in one)")
      else
        match prev.avatars.find? (fun a => a.id == tid) with
        | some targetAvatar =>
          if tid ≠ avatarId then
            if targetAvatar.conversationTarget.isSome then
              unchangedResult prev currentAvatar "idle"
                (annotate finalThought ("(Target " ++ tid ++ " busy)"))
            else
              let newConv : Conversation :=
                { id := freshConvId, participants := [avatarId, tid],
                  messages := [⟨avatarId, msg, now⟩], startTime := now,
                  endTime := none }
              { updateAction := "conversing", finalThought := finalThought,
                newPosition := currentAvatar.position,
                newOrientation := currentAvatar.orientation,
                newConversationTarget := some tid,
                nextAvatars := prev.avatars.map fun a =>
                  if a.id = avatarId then
                    { a with conversationTarget := some tid,
                             currentAction := some "conversing" }
                  else if a.id = tid then
                    { a with conversationTarget := some avatarId,
                             currentAction := some "conversing" }
                  else a,
                nextConversations := prev.conversations ++ [newConv] }
          else
            unchangedResult prev currentAvatar "idle"
              (annotate finalThought
                ("(Target avatar " ++ tid ++ " invalid)"))
        | none =>
          unchangedResult prev currentAvatar "idle"
            (annotate finalThought ("(Target avatar " ++ tid ++ " invalid)"))
    | _, _ =>
      unchangedResult prev currentAvatar "idle"
        (annotate finalThought "(Missing parameters for initiate_conversation)")
  else if updateAction = "continue_conversation" then
    let continueTargetId := updateParams.bind (·.targetId)
    let continueMessage := updateParams.bind (·.message)
    match continueTargetId, continueMessage with
    | some tid, some msg =>
      if tid ≠ "" ∧ msg ≠ "" ∧ currentAvatar.conversationTarget = some tid then
        match prev.conversations.findIdx? (activeWith avatarId tid) with
        | some convIndex =>
          { updateAction := "conversing", finalThought := finalThought,
            newPosition := currentAvatar.position,
            newOrientation := currentAvatar.orientation,
            newConversationTarget := currentAvatar.conversationTarget,
            nextAvatars := prev.avatars,
            nextConversations := prev.conversations.mapIdx fun i c =>
              if i = convIndex then
                { c with messages :=
                    jsSliceLast 19 c.messages ++ [⟨avatarId, msg, now⟩] }
              else c }
        | none =>
          { unchangedResult prev currentAvatar "idle"
              (annotate finalThought
                ("(No active conversation with " ++ tid ++ ")")) with
            newConversationTarget := none }
      else
        { unchangedResult prev currentAvatar "idle"
            (annotate finalThought
              "(Invalid parameters or state for continue_conversation)") with
          newConversationTarget := none }
    | _, _ =>
      { unchangedResult prev currentAvatar "idle"
          (annotate finalThought
            "(Invalid parameters or state for continue_conversation)") with
        newConversationTarget := none }
  else if updateAction = "disengage_conversation" then
    let disengageTargetId := updateParams.bind (·.targetId)
    match disengageTargetId with
    | some tid =>
      if tid ≠ "" ∧ currentAvatar.conversationTarget = some tid then
        match prev.conversations.findIdx? (activeWith avatarId tid) with
        | some convIndex =>
          { updateAction := "idle", finalThought := finalThought,
            newPosition := currentAvatar.position,
            newOrientation := currentAvatar.orientation,
            newConversationTarget := none,
            nextAvatars := prev.avatars.map fun a =>
              if a.id = avatarId ∨ a.id = tid then
                { a with currentAction := none, conversationTarget := none }
              else a,
            nextConversations := prev.conversations.mapIdx fun i c =>
              if i = convIndex then { c with endTime := some now } else c }
        | none =>
          -- "Conversation already ended?": only the warning is logged.
          { unchangedResult prev currentAvatar "idle" finalThought with
            newConversationTarget := none }
      else
        unchangedResult prev currentAvatar
          (if currentAvatar.conversationTarget = none then "idle"
           else "disengage_conversation")
          (annotate finalThought
            "(Cannot disengage, not in conversation or missing target)")
    | none =>
      unchangedResult prev currentAvatar
        (if currentAvatar.conversationTarget = none then "idle"
         else "disengage_conversation")
        (annotate finalThought
          "(Cannot disengage, not in conversation or missing target)")
  else if updateAction = "think" then
    -- Dead in practice: `preResolve` maps `think` to the string
    -- `"thinking"`, which falls to the default case below.
    unchangedResult prev currentAvatar "thinking" finalThought
  else
    -- `case 'idle':` and the default case coincide in the source.
    unchangedResult prev currentAvatar "idle" finalThought

/-- The final per-avatar field update applied by `executeDecision` to the
acting avatar: `finalActionString` (actions `idle`/`thinking` are stored as
*absent*), the switch results, and the clamped next-decision delay. -/
def resolvedAvatarUpdate (now : ℝ) (mode : String) (r : SwitchResult)
    (clampedDelay : ℝ) (a : AvatarState) : AvatarState :=
  { a with position := r.newPosition,
           orientation := r.newOrientation,
           currentAction :=
             if r.updateAction = "idle" ∨ r.updateAction = "thinking" then
               none
             else some r.updateAction,
           conversationTarget := r.newConversationTarget,
           thought := r.finalThought,
           lastActionTime :=
             some (if mode = "time-based" then now
                   else (a.lastActionTime.getD 0) + 1),
           nextDecisionTime := now + clampedDelay }

/-- `executeDecision`: resolves one oracle decision for one avatar against
the current snapshot.  `now` models `Date.now()` at resolution time and
`oracle` the Interaction Oracle outcome (consulted only for
`interact_object`). -/
def executeDecision (now : ℝ) (oracle : OracleOutcome) (freshConvId : String)
    (avatarId : String) (decision : LLMDecision) (prev : AppState) :
    AppState :=
  let pre := preResolve prev avatarId decision oracle
  match prev.avatars.find? (fun a => a.id == avatarId) with
  | none => prev
  | some currentAvatar =>
    let avatarIndex := prev.avatars.findIdx fun a => a.id == avatarId
    let r := resolveSwitch now freshConvId prev avatarId currentAvatar
      pre.1 pre.2.1 pre.2.2
    let decisionDelay :=
      ((pre.2.1.bind (·.duration)).getD currentAvatar.settings.rateLimit)
    let clampedDelay := min 10000 (max 100 decisionDelay)
    { prev with
      avatars := r.nextAvatars.mapIdx fun idx a =>
        if idx = avatarIndex then
          resolvedAvatarUpdate now prev.simulation.mode r clampedDelay a
        else a,
      conversations := r.nextConversations }

/-! ### Generic list helpers -/

theorem mapIdx_eq_self {α : Type} (l : List α) (f : ℕ → α → α)
    (h : ∀ i a, f i a = a) : l.mapIdx f = l := by
  induction l generalizing f with
  | nil => simp
  | cons x xs ih => simp [List.mapIdx_cons, h, ih]

theorem mapIdx_congr_fun {α β : Type} (l : List α) (f g : ℕ → α → β)
    (h : ∀ i a, f i a = g i a) : l.mapIdx f = l.mapIdx g := by
  induction l generalizing f g with
  | nil => simp
  | cons x xs ih =>
    simp only [List.mapIdx_cons, h]
    exact congrArg _ (ih _ _ fun i a => h (i + 1) a)

theorem map_key_mapIdx {α : Type} {β : Type} (key : α → β) (l : List α)
    (f : ℕ → α → α) (h : ∀ i a, key (f i a) = key a) :
    (l.mapIdx f).map key = l.map key := by
  induction l generalizing f with
  | nil => simp
  | cons x xs ih =>
    simp only [List.mapIdx_cons, List.map_cons, h]
    exact congrArg _ (ih _ fun i a => h (i + 1) a)

/-- The final per-avatar update of `executeDecision` — a `mapIdx` that
rewrites the element at the index found by `findIdx` over the *previous*
avatar list, applied after an id-preserving `map g` — collapses to a single
id-keyed `map` when the keys are distinct. -/
theorem mapIdx_update_findIdx {α : Type} (key : α → String) (l : List α)
    (g f : α → α) (aid : String)
    (hnd : (l.map key).Nodup) :
    (l.map g).mapIdx
        (fun idx a => if idx = l.findIdx (fun a => key a == aid) then f a
                      else a) =
      l.map fun a => if key a = aid then f (g a) else g a := by
  induction l with
  | nil => simp
  | cons x xs ih =>
    have hx : key x ∉ xs.map key := (List.nodup_cons.mp hnd).1
    have hnd' : (xs.map key).Nodup := (List.nodup_cons.mp hnd).2
    by_cases hkey : key x = aid
    · have hfi : (x :: xs).findIdx (fun a => key a == aid) = 0 := by
        rw [List.findIdx_cons]
        simp [hkey]
      rw [hfi]
      simp only [List.map_cons, List.mapIdx_cons, if_pos rfl, if_pos hkey]
      refine congrArg _ ?_
      rw [mapIdx_eq_self _ _ (by intro i a; simp)]
      symm
      apply List.map_congr_left
      intro a ha
      rw [if_neg]
      intro hEq
      exact hx (hkey ▸ hEq ▸ List.mem_map_of_mem key ha)
    · have hfi : (x :: xs).findIdx (fun a => key a == aid) =
          xs.findIdx (fun a => key a == aid) + 1 := by
        have hb : (key x == aid) = false := beq_eq_false_iff_ne.mpr hkey
        rw [List.findIdx_cons, hb, cond_false]
      rw [hfi]
      simp only [List.map_cons, List.mapIdx_cons]
      rw [if_neg (by omega), if_neg hkey]
      refine congrArg _ ?_
      rw [mapIdx_congr_fun (xs.map g)
        (fun i a =>
          if i + 1 = xs.findIdx (fun a => key a == aid) + 1 then f a else a)
        (fun idx a =>
          if idx = xs.findIdx (fun a => key a == aid) then f a else a)
        (by intro i a; simp)]
      exact ih hnd'

/-- A `mapIdx` that rewrites exactly the element at index `i` splits the
list as `take i ++ [rewritten element] ++ drop (i+1)`. -/
theorem mapIdx_ite_take_drop {α : Type} (f : α → α) :
    ∀ (l : List α) (i : ℕ) (hi : i < l.length),
    (l.mapIdx fun k c => if k = i then f c else c) =
      l.take i ++ f (l.get ⟨i, hi⟩) :: l.drop (i + 1) := by
  intro l
  induction l with
  | nil => intro i hi; simp at hi
  | cons a l' ih =>
    intro i hi
    rcases i with _ | i'
    · simp only [List.mapIdx_cons, if_pos rfl, List.take_zero, List.get,
        List.drop_succ_cons, List.drop_zero, List.nil_append]
      refine congrArg _ (mapIdx_eq_self _ _ ?_)
      intro k c; simp
    · simp only [List.mapIdx_cons, List.take_succ_cons, List.get,
        List.drop_succ_cons, List.cons_append]
      rw [if_neg (by omega)]
      refine congrArg _ ?_
      rw [mapIdx_congr_fun l'
        (fun k c => if k + 1 = i' + 1 then f c else c)
        (fun k c => if k = i' then f c else c) (by intro k c; simp)]
      exact ih i' (by simpa using hi)

/-- Decomposition of a `mapIdx` update at the index located by `findIdx?`:
the list splits as `l1 ++ x :: l2` with `x` the first match, and the update
rewrites exactly `x`. -/
theorem mapIdx_update_findIdx? {α : Type} (p : α → Bool) (f : α → α)
    (l : List α) (i : ℕ) (h : l.findIdx? p = some i) :
    ∃ l1 x l2, l = l1 ++ x :: l2 ∧ l1.length = i ∧ p x = true ∧
      (∀ y ∈ l1, p y = false) ∧
      (l.mapIdx fun k c => if k = i then f c else c) = l1 ++ f x :: l2 := by
  rw [List.findIdx?_eq_some_iff_getElem] at h
  obtain ⟨hlen, hpx, hbefore⟩ := h
  refine ⟨l.take i, l.get ⟨i, hlen⟩, l.drop (i + 1), ?_, ?_, hpx, ?_, ?_⟩
  · conv_lhs => rw [← List.take_append_drop i l]
    rw [← List.getElem_cons_drop l i hlen]
    rfl
  · rw [List.length_take]; omega
  · intro y hy
    rw [List.mem_iff_getElem] at hy
    obtain ⟨j, hj, rfl⟩ := hy
    have hj' : j < i := by
      have := List.length_take i l
      omega
    rw [List.getElem_take]
    exact Bool.eq_false_iff.mpr (hbefore j hj')
  · exact mapIdx_ite_take_drop f l i hlen

theorem nodup_key_inj {α : Type} {key : α → String} {l : List α}
    (hnd : (l.map key).Nodup) {a b : α} (ha : a ∈ l) (hb : b ∈ l)
    (hab : key a = key b) : a = b :=
  List.inj_on_of_nodup_map hnd ha hb hab

/-! ### C10 — perception is independent of the obstacle list -/

/-- C10: the per-avatar snapshot builder reports identical `visibleAvatars`
and `visibleObjects` on two worlds that differ only in their obstacles: the
heuristic occlusion check in the source never blocks a line of sight (its
blocking `return` is commented out), so `isVisible` ignores `obstacles`. -/
theorem c10_perception_independent_of_obstacles
    (avatar : AvatarState) (allAvatars : List AvatarState)
    (objects : List ArenaObject) (obs1 obs2 : List Obstacle)
    (boardSize : BoardSize) :
    (getSensoryInput avatar allAvatars objects obs1 boardSize).visibleAvatars
      = (getSensoryInput avatar allAvatars objects obs2
          boardSize).visibleAvatars ∧
    (getSensoryInput avatar allAvatars objects obs1 boardSize).visibleObjects
      = (getSensoryInput avatar allAvatars objects obs2
          boardSize).visibleObjects :=
  ⟨rfl, rfl⟩

/-! ### C5 — the visibility test -/

/-- The claim's visibility condition: distance at most the eyesight radius,
and the minimal signed angular difference between orientation and bearing,
normalized to `(-π, π]`, at most half the cone angle (all in radians). -/
def visibleSpec (avatar : AvatarState) (targetPos : Vector2) : Prop :=
  distance avatar.position targetPos ≤ avatar.settings.eyesight.radius ∧
  |normHalfOpenPi
      (atan2 (targetPos.y - avatar.position.y)
          (targetPos.x - avatar.position.x) -
        avatar.orientation * (π / 180))| ≤
    (avatar.settings.eyesight.angle / 2) * (π / 180)

theorem isVisible_snd (avatar : AvatarState) (obstacles : List Obstacle)
    (targetPos : Vector2) :
    (isVisible avatar obstacles targetPos).2 =
      distance avatar.position targetPos := by
  unfold isVisible distance
  dsimp only
  have h : Real.sqrt
      ((targetPos.x - avatar.position.x) * (targetPos.x - avatar.position.x) +
       (targetPos.y - avatar.position.y) * (targetPos.y - avatar.position.y)) =
      Real.sqrt
      ((avatar.position.x - targetPos.x) * (avatar.position.x - targetPos.x) +
       (avatar.position.y - targetPos.y) * (avatar.position.y - targetPos.y)) := by
    ring_nf
  split_ifs <;> simpa using h

/-- C5 (amended): the visibility test reports a target visible **iff** the
distance is at most the eyesight radius, the minimal signed angular
difference (normalized to `(-π, π]`) is at most half the cone angle, **and
the distance is nonzero** — the source additionally rejects `dist === 0`;
the reported distance is the Euclidean distance. -/
theorem c5_visibility_iff (avatar : AvatarState) (obstacles : List Obstacle)
    (targetPos : Vector2) :
    ((isVisible avatar obstacles targetPos).1 = true ↔
      visibleSpec avatar targetPos ∧
        distance avatar.position targetPos ≠ 0) ∧
    (isVisible avatar obstacles targetPos).2 =
      distance avatar.position targetPos := by
  refine ⟨?_, isVisible_snd avatar obstacles targetPos⟩
  have hd : Real.sqrt
      ((targetPos.x - avatar.position.x) * (targetPos.x - avatar.position.x) +
       (targetPos.y - avatar.position.y) * (targetPos.y - avatar.position.y)) =
      distance avatar.position targetPos := by
    unfold distance; ring_nf
  unfold isVisible visibleSpec
  dsimp only
  rw [hd]
  by_cases h1 : distance avatar.position targetPos >
      avatar.settings.eyesight.radius ∨
      distance avatar.position targetPos = 0
  · rw [if_pos h1]
    simp only [Bool.false_eq_true, false_iff]
    rintro ⟨⟨hle, _⟩, hne⟩
    rcases h1 with h1 | h1
    · exact absurd hle (not_le.mpr h1)
    · exact hne h1
  · rw [if_neg h1]
    push_neg at h1
    by_cases h2 : |normHalfOpenPi
        (atan2 (targetPos.y - avatar.position.y)
            (targetPos.x - avatar.position.x) -
          avatar.orientation * (π / 180))| ≤
        (avatar.settings.eyesight.angle / 2) * (π / 180)
    · rw [if_pos h2]
      simp only [true_iff]
      exact ⟨⟨h1.1, h2⟩, h1.2⟩
    · rw [if_neg h2]
      simp only [Bool.false_eq_true, false_iff]
      rintro ⟨⟨_, habs⟩, _⟩
      exact h2 habs

/-- The world and observer used in the C5 counterexample. -/
def c5Avatar : AvatarState :=
  { id := "avatar-0", position := ⟨50, 50⟩, orientation := 0,
    settings := INITIAL_AVATAR_SETTINGS, nextDecisionTime := 0 }

/-- C5 (counterexample): a target point at the observer's own position has
distance `0 ≤ radius` and relative angle `0 ≤` half the cone, so the claim
says it is visible, but the source's `dist === 0` guard reports it not
visible. -/
theorem c5_counterexample :
    visibleSpec c5Avatar ⟨50, 50⟩ ∧
    (isVisible c5Avatar [] ⟨50, 50⟩).1 = false := by
  constructor
  · unfold visibleSpec c5Avatar distance atan2 normHalfOpenPi
      INITIAL_AVATAR_SETTINGS
    norm_num
    have harg : Complex.arg ⟨0, 0⟩ = 0 := by
      have h0 : (⟨0, 0⟩ : ℂ) = 0 := by
        apply Complex.ext <;> simp
      rw [h0, Complex.arg_zero]
    rw [harg]
    have hceil : ⌈(0:ℝ) / (2 * π) - 1/2⌉ = 0 := by
      rw [Int.ceil_eq_zero_iff]
      have := Real.pi_pos
      constructor
      · rw [zero_div]; norm_num
      · rw [zero_div]; norm_num
    rw [hceil]
    have := Real.pi_pos
    simp
    positivity
  · unfold isVisible c5Avatar INITIAL_AVATAR_SETTINGS
    norm_num

/-! ### C3 — move resolution -/

/-- The claim's rejection condition for a `move`: candidate out of board
bounds, within the avatar radius (8) of the closest point of some obstacle,
or within the sum of radii (16) of another avatar. -/
def moveBlockedSpec (prev : AppState) (avatarId : String) (p : Vector2) :
    Prop :=
  ¬ isPointInBounds p prev.simulation.boardSize ∨
  (∃ obs ∈ prev.obstacles, distance p (closestPointOnRect p obs) < 8) ∨
  (∃ other ∈ prev.avatars, other.id ≠ avatarId ∧
    distance p other.position < 8 + 8)

open Classical in
theorem move_branch_characterization (now : ℝ) (fc : String)
    (prev : AppState) (avatarId : String) (ca : AvatarState)
    (params : Option LLMParams) (th : Option String) :
    resolveSwitch now fc prev avatarId ca "move" params th =
      (if moveBlockedSpec prev avatarId
            (moveCandidate ca ((params.bind (·.dist)).getD 0)) then
        { unchangedResult prev ca "move" (annotate th "(Movement blocked)") with
          newPosition := ca.position }
      else
        { unchangedResult prev ca "move" th with
          newPosition := moveCandidate ca ((params.bind (·.dist)).getD 0) }) := by
  unfold resolveSwitch
  rw [if_neg (by decide : ¬ ("move" = "turn")), if_pos rfl]
  dsimp only
  set pot := moveCandidate ca ((params.bind (·.dist)).getD 0) with hpot
  by_cases hb : moveBlockedSpec prev avatarId pot
  · rw [if_pos hb]
    have hcol : (if ¬ isPointInBounds pot prev.simulation.boardSize then true
        else if prev.obstacles.any (fun obs =>
            decide (distance pot (closestPointOnRect pot obs) < 8)) then true
        else prev.avatars.any fun other =>
          if other.id = avatarId then false
          else decide (distance pot other.position < 8 + 8)) = true := by
      by_cases h1 : isPointInBounds pot prev.simulation.boardSize
      · rw [if_neg (not_not_intro h1)]
        rcases hb with hc | hc | hc
        · exact absurd h1 hc
        · have h2' : (prev.obstacles.any fun obs =>
              decide (distance pot (closestPointOnRect pot obs) < 8))
              = true := by
            rw [List.any_eq_true]
            obtain ⟨obs, hm, hd⟩ := hc
            exact ⟨obs, hm, decide_eq_true hd⟩
          rw [if_pos h2']
        · by_cases h2 : (prev.obstacles.any fun obs =>
              decide (distance pot (closestPointOnRect pot obs) < 8)) = true
          · rw [if_pos h2]
          · rw [if_neg h2]
            rw [List.any_eq_true]
            obtain ⟨other, hm, hne, hd⟩ := hc
            exact ⟨other, hm, by rw [if_neg hne]; exact decide_eq_true hd⟩
      · rw [if_pos h1]
    rw [hcol, if_pos rfl]
  · rw [if_neg hb]
    have hnb : isPointInBounds pot prev.simulation.boardSize ∧
        (∀ obs ∈ prev.obstacles,
          ¬ distance pot (closestPointOnRect pot obs) < 8) ∧
        (∀ other ∈ prev.avatars, other.id ≠ avatarId →
          ¬ distance pot other.position < 8 + 8) := by
      refine ⟨?_, ?_, ?_⟩
      · by_contra hc
        exact hb (Or.inl hc)
      · intro obs hm hd
        exact hb (Or.inr (Or.inl ⟨obs, hm, hd⟩))
      · intro other hm hne hd
        exact hb (Or.inr (Or.inr ⟨other, hm, hne, hd⟩))
    have hcol : (if ¬ isPointInBounds pot prev.simulation.boardSize then true
        else if prev.obstacles.any (fun obs =>
            decide (distance pot (closestPointOnRect pot obs) < 8)) then true
        else prev.avatars.any fun other =>
          if other.id = avatarId then false
          else decide (distance pot other.position < 8 + 8)) = false := by
      rw [if_neg (not_not_intro hnb.1)]
      have h2' : (prev.obstacles.any fun obs =>
          decide (distance pot (closestPointOnRect pot obs) < 8)) = false := by
        rw [Bool.eq_false_iff]
        intro hany
        rw [List.any_eq_true] at hany
        obtain ⟨obs, hm, hd⟩ := hany
        exact hnb.2.1 obs hm (of_decide_eq_true hd)
      rw [h2', if_neg (by simp)]
      rw [Bool.eq_false_iff]
      intro hany
      rw [List.any_eq_true] at hany
      obtain ⟨other, hm, hd⟩ := hany
      by_cases hid : other.id = avatarId
      · rw [if_pos hid] at hd; exact Bool.false_ne_true hd
      · rw [if_neg hid] at hd
        exact hnb.2.2 other hm hid (of_decide_eq_true hd)
    rw [hcol, if_neg (by simp)]

/-- The move decision used in Scenario A. -/
def scenarioAMoveDecision : LLMDecision :=
  { action := "move", parameters := some { dist := some 10 } }

theorem moveCandidate_scenarioA : moveCandidate initialAvatar0 10 = ⟨60, 50⟩ := by
  unfold moveCandidate initialAvatar0
  dsimp only
  have h0 : (0 : ℝ) * (π / 180) = 0 := by norm_num
  rw [h0, Real.cos_zero, Real.sin_zero]
  have hc : max (-15 : ℝ) (min 15 10) = 10 := by
    rw [min_eq_right (by norm_num), max_eq_right (by norm_num)]
  rw [hc]
  congr 1 <;> norm_num

theorem scenarioA_not_blocked :
    ¬ moveBlockedSpec createInitialState "avatar-0" ⟨60, 50⟩ := by
  unfold moveBlockedSpec createInitialState initialAvatar0 initialAvatar1
  rintro (h | h | h)
  · exact h (by unfold isPointInBounds; dsimp only; norm_num)
  · obtain ⟨obs, hm, hd⟩ := h
    simp only [List.mem_cons, List.not_mem_nil, or_false] at hm
    rcases hm with rfl | rfl
    · unfold closestPointOnRect distance at hd
      dsimp only at hd
      rw [min_eq_left (by norm_num : (60:ℝ) ≤ 100 + 10),
        max_eq_left (by norm_num : (60:ℝ) ≤ 100),
        min_eq_left (by norm_num : (50:ℝ) ≤ 100 + 150),
        max_eq_left (by norm_num : (50:ℝ) ≤ 100)] at hd
      have harg : ((60:ℝ) - 100) * (60 - 100) + (50 - 100) * (50 - 100) =
          4100 := by norm_num
      rw [harg] at hd
      have h8 : (8 : ℝ) ≤ Real.sqrt 4100 := by
        rw [Real.le_sqrt (by norm_num) (by norm_num)]
        norm_num
      exact absurd hd (not_lt.mpr h8)
    · unfold closestPointOnRect distance at hd
      dsimp only at hd
      rw [min_eq_left (by norm_num : (60:ℝ) ≤ 300 + 150),
        max_eq_left (by norm_num : (60:ℝ) ≤ 300),
        min_eq_left (by norm_num : (50:ℝ) ≤ 300 + 10),
        max_eq_left (by norm_num : (50:ℝ) ≤ 300)] at hd
      have harg : ((60:ℝ) - 300) * (60 - 300) + (50 - 300) * (50 - 300) =
          120100 := by norm_num
      rw [harg] at hd
      have h8 : (8 : ℝ) ≤ Real.sqrt 120100 := by
        rw [Real.le_sqrt (by norm_num) (by norm_num)]
        norm_num
      exact absurd hd (not_lt.mpr h8)
  · obtain ⟨other, hm, hne, hd⟩ := h
    simp only [List.mem_cons, List.not_mem_nil, or_false] at hm
    rcases hm with rfl | rfl
    · exact hne rfl
    · unfold distance at hd
      dsimp only at hd
      have harg : ((60:ℝ) - 450) * (60 - 450) + (50 - 450) * (50 - 450) =
          312100 := by norm_num
      rw [harg] at hd
      have h16 : (8 + 8 : ℝ) ≤ Real.sqrt 312100 := by
        rw [Real.le_sqrt (by norm_num) (by norm_num)]
        norm_num
      exact absurd hd (not_lt.mpr h16)

open Classical in
/-- C3: for every `move` decision the resolver clamps the distance to
`[-15, 15]`, computes the candidate position along the current orientation
(`moveCandidate`), and rejects the move — position unchanged, rationale
annotated with "(Movement blocked)" — exactly when the candidate leaves the
board bounds, lies within the avatar radius (8) of the closest point of
some obstacle rectangle, or within the sum of radii (16) of another avatar
(`moveBlockedSpec`); and in Scenario A (avatar at (50,50), orientation 0,
distance 10, clear 500×500 board) the avatar ends at (60,50). -/
theorem c3_move_clamp_collision_and_scenarioA :
    (∀ (now : ℝ) (fc : String) (prev : AppState) (avatarId : String)
        (ca : AvatarState) (params : Option LLMParams) (th : Option String),
      (resolveSwitch now fc prev avatarId ca "move" params th).newPosition =
        (if moveBlockedSpec prev avatarId
              (moveCandidate ca ((params.bind (·.dist)).getD 0)) then
          ca.position
        else moveCandidate ca ((params.bind (·.dist)).getD 0)) ∧
      (resolveSwitch now fc prev avatarId ca "move" params th).finalThought =
        (if moveBlockedSpec prev avatarId
              (moveCandidate ca ((params.bind (·.dist)).getD 0)) then
          annotate th "(Movement blocked)"
        else th)) ∧
    (executeDecision 0 (.success "") "conv" "avatar-0" scenarioAMoveDecision
        createInitialState).avatars.map (fun a => a.position) =
      [⟨60, 50⟩, ⟨450, 450⟩] := by
  constructor
  · intro now fc prev avatarId ca params th
    rw [move_branch_characterization now fc prev avatarId ca params th]
    by_cases hb : moveBlockedSpec prev avatarId
        (moveCandidate ca ((params.bind (·.dist)).getD 0))
    · rw [if_pos hb, if_pos hb, if_pos hb]
      exact ⟨rfl, rfl⟩
    · rw [if_neg hb, if_neg hb, if_neg hb]
      exact ⟨rfl, rfl⟩
  · have hchar := move_branch_characterization 0 "conv" createInitialState
      "avatar-0" initialAvatar0 (some { dist := some 10 }) none
    have hcand : moveCandidate initialAvatar0
        (((some { dist := some 10 } : Option LLMParams).bind
          (·.dist)).getD 0) = ⟨60, 50⟩ := moveCandidate_scenarioA
    rw [hcand, if_neg scenarioA_not_blocked] at hchar
    have hpos : (resolveSwitch 0 "conv" createInitialState "avatar-0"
        initialAvatar0 "move" (some { dist := some 10 }) none).newPosition =
        ⟨60, 50⟩ := by rw [hchar]
    have hnav : (resolveSwitch 0 "conv" createInitialState "avatar-0"
        initialAvatar0 "move" (some { dist := some 10 }) none).nextAvatars =
        createInitialState.avatars := by rw [hchar]; rfl
    unfold executeDecision
    rw [show preResolve createInitialState "avatar-0" scenarioAMoveDecision
        (OracleOutcome.success "") = ("move", some { dist := some 10 }, none)
      from rfl]
    rw [show createInitialState.avatars.find? (fun a => a.id == "avatar-0") =
        some initialAvatar0 from rfl]
    dsimp only
    rw [show createInitialState.avatars.findIdx (fun a => a.id == "avatar-0") =
        0 from rfl]
    rw [hnav]
    rw [show createInitialState.avatars = [initialAvatar0, initialAvatar1]
      from rfl]
    simp only [List.mapIdx_cons, List.mapIdx_nil, List.map_cons, List.map_nil,
      if_true]
    rw [if_neg (show ¬ (0 + 1 = 0) by omega)]
    unfold resolvedAvatarUpdate
    dsimp only
    rw [hpos]
    rfl

/-! ### C4 — turn snapping -/

/-- The turn-angle validation performed by the decision flow
(`avatarDecisionGenkitFlow`, turn case): a missing angle defaults to `0`;
otherwise the angle is clamped to `[-180, 180]` and then snapped to the
nearest multiple of 30 with `Math.round(angle / 30) * 30`. -/
def validateTurnAngle (angle : Option ℝ) : ℝ :=
  match angle with
  | none => 0
  | some a => ((jsRound (max (-180) (min 180 a) / 30) : ℤ) : ℝ) * 30

theorem turn_branch_characterization (now : ℝ) (fc : String)
    (prev : AppState) (avatarId : String) (ca : AvatarState)
    (params : Option LLMParams) (th : Option String) :
    resolveSwitch now fc prev avatarId ca "turn" params th =
      { unchangedResult prev ca "turn" th with
        newOrientation := jsMod (ca.orientation +
          ((jsRound (((params.bind (·.angle)).getD 0) / 30) : ℤ) : ℝ) * 30 +
          360) 360 } := by
  unfold resolveSwitch
  rw [if_pos rfl]

/-- `Math.round` of an integer is that integer. -/
theorem jsRound_intCast (m : ℤ) : jsRound (m : ℝ) = m := by
  unfold jsRound
  rw [Int.floor_int_add]
  norm_num

/-- `a % 360` in JavaScript, for positive `a`: nonnegative, below 360, and
congruent to `a` modulo 360. -/
theorem jsMod_360 (a : ℝ) (ha : 0 < a) :
    0 ≤ jsMod a 360 ∧ jsMod a 360 < 360 ∧
    ∃ k : ℤ, jsMod a 360 = a + 360 * k := by
  unfold jsMod jsTrunc
  rw [if_pos (le_of_lt (div_pos ha (by norm_num)))]
  have h1 : ((⌊a / 360⌋ : ℤ) : ℝ) ≤ a / 360 := Int.floor_le _
  have h2 : a / 360 < (⌊a / 360⌋ : ℤ) + 1 := Int.lt_floor_add_one _
  have h1' : ((⌊a / 360⌋ : ℤ) : ℝ) * 360 ≤ a :=
    (le_div_iff (by norm_num : (0:ℝ) < 360)).mp h1
  have h2' : a < (((⌊a / 360⌋ : ℤ) : ℝ) + 1) * 360 :=
    (div_lt_iff (by norm_num : (0:ℝ) < 360)).mp h2
  refine ⟨by linarith, by linarith, ⟨-⌊a / 360⌋, by push_cast; ring⟩⟩

/-- The validated turn angle is a multiple of 30 in `[-180, 180]`. -/
theorem validateTurnAngle_shape (angle : Option ℝ) :
    ∃ m : ℤ, validateTurnAngle angle = (m : ℝ) * 30 ∧
      -180 ≤ validateTurnAngle angle ∧ validateTurnAngle angle ≤ 180 := by
  rcases angle with _ | a
  · exact ⟨0, by simp [validateTurnAngle]⟩
  · simp only [validateTurnAngle]
    set c := max (-180 : ℝ) (min 180 a) with hc
    have hcl : -180 ≤ c := le_max_left _ _
    have hcu : c ≤ 180 := max_le (by norm_num) (min_le_left _ _)
    set m := jsRound (c / 30) with hm
    have hdl : (-6 : ℝ) ≤ c / 30 :=
      (le_div_iff (show (0:ℝ) < 30 by norm_num)).mpr (by linarith)
    have hdu : c / 30 ≤ 6 :=
      (div_le_iff (show (0:ℝ) < 30 by norm_num)).mpr (by linarith)
    have hml : -6 ≤ m := by
      rw [hm]
      unfold jsRound
      rw [Int.le_floor]
      push_cast
      linarith
    have hmu : m ≤ 6 := by
      rw [hm]
      unfold jsRound
      have h7 : ⌊c / 30 + 1/2⌋ < 7 := by
        rw [Int.floor_lt]
        push_cast
        linarith
      omega
    refine ⟨m, rfl, ?_, ?_⟩
    · have h6 : ((-6 : ℤ) : ℝ) ≤ (m : ℝ) := by exact_mod_cast hml
      push_cast at h6
      nlinarith
    · have h6 : (m : ℝ) ≤ ((6 : ℤ) : ℝ) := by exact_mod_cast hmu
      push_cast at h6
      nlinarith

/-- C4 (counterexample): the spec's boundary example says a turn with angle
47° changes the orientation by exactly 30°, but the pipeline (flow-side
clamp+snap, then the resolver's snap and addition) changes it by 60°:
`round(47/30) = 2`, so the snapped angle is 60°. -/
theorem c4_counterexample :
    validateTurnAngle (some 47) = 60 ∧
    (resolveSwitch 0 "conv" createInitialState "avatar-0" initialAvatar0
        "turn" (some { angle := some (validateTurnAngle (some 47)) })
        none).newOrientation = 60 ∧
    (60 : ℝ) - initialAvatar0.orientation ≠ 30 := by
  have hv : validateTurnAngle (some 47) = 60 := by
    simp only [validateTurnAngle]
    rw [min_eq_right (by norm_num : (47:ℝ) ≤ 180),
      max_eq_right (by norm_num : (-180:ℝ) ≤ 47)]
    have : jsRound ((47 : ℝ) / 30) = 2 := by
      unfold jsRound
      rw [Int.floor_eq_iff]
      constructor <;> push_cast <;> norm_num
    rw [this]
    norm_num
  refine ⟨hv, ?_, ?_⟩
  · rw [turn_branch_characterization]
    dsimp only
    rw [hv]
    have h60 : ((some { angle := some (60 : ℝ) } :
        Option LLMParams).bind (·.angle)).getD 0 = (60 : ℝ) := rfl
    rw [h60]
    have : jsRound ((60 : ℝ) / 30) = 2 := by
      have h2 : ((60 : ℝ) / 30) = ((2 : ℤ) : ℝ) := by norm_num
      rw [h2, jsRound_intCast]
    rw [this]
    have h420 : initialAvatar0.orientation + ((2 : ℤ) : ℝ) * 30 + 360 =
        420 := by
      unfold initialAvatar0
      push_cast
      norm_num
    rw [h420]
    unfold jsMod jsTrunc
    rw [if_pos (by norm_num : (0:ℝ) ≤ 420 / 360)]
    have : ⌊(420 : ℝ) / 360⌋ = 1 := by
      rw [Int.floor_eq_iff]
      constructor <;> push_cast <;> norm_num
    rw [this]
    norm_num
  · unfold initialAvatar0
    norm_num

/-- C4 (amended): the pipeline clamps the relative angle to `[-180, 180]`
before snapping to the nearest multiple of 30 (round-half-up on the
quotient); the resolver adds the snapped angle to the orientation modulo
360, leaving the result in `[0, 360)`; and a turn with raw angle 47°
changes the orientation by exactly **60°** (not 30°). -/
theorem c4_turn_snap_mod (now : ℝ) (fc : String) (prev : AppState)
    (avatarId : String) (ca : AvatarState) (angle : Option ℝ)
    (th : Option String) (h0 : 0 ≤ ca.orientation)
    (h1 : ca.orientation < 360) :
    0 ≤ (resolveSwitch now fc prev avatarId ca "turn"
        (some { angle := some (validateTurnAngle angle) }) th).newOrientation ∧
    (resolveSwitch now fc prev avatarId ca "turn"
        (some { angle := some (validateTurnAngle angle) }) th).newOrientation
      < 360 ∧
    (∃ k : ℤ, (resolveSwitch now fc prev avatarId ca "turn"
        (some { angle := some (validateTurnAngle angle) }) th).newOrientation
      = ca.orientation + validateTurnAngle angle + 360 * k) ∧
    validateTurnAngle (some 47) = 60 := by
  obtain ⟨m, hm, hlo, hhi⟩ := validateTurnAngle_shape angle
  rw [turn_branch_characterization]
  dsimp only
  have hget : ((some { angle := some (validateTurnAngle angle) } :
      Option LLMParams).bind (·.angle)).getD 0 = validateTurnAngle angle :=
    rfl
  rw [hget, hm]
  have hdiv : (m : ℝ) * 30 / 30 = ((m : ℤ) : ℝ) := by
    field_simp
  rw [hdiv, jsRound_intCast]
  have hpos : 0 < ca.orientation + (m : ℝ) * 30 + 360 := by
    rw [hm] at hlo
    linarith
  obtain ⟨hnn, hlt, k, hk⟩ := jsMod_360 _ hpos
  refine ⟨hnn, hlt, ⟨k + 1, ?_⟩, ?_⟩
  · rw [hk]
    push_cast
    ring
  · simp only [validateTurnAngle]
    rw [min_eq_right (by norm_num : (47:ℝ) ≤ 180),
      max_eq_right (by norm_num : (-180:ℝ) ≤ 47)]
    have : jsRound ((47 : ℝ) / 30) = 2 := by
      unfold jsRound
      rw [Int.floor_eq_iff]
      constructor <;> push_cast <;> norm_num
    rw [this]
    norm_num

/-- Witness for `c4_turn_snap_mod` at the initial avatar (orientation 0)
and raw angle 47. -/
theorem c4_turn_snap_mod_witness :
    0 ≤ (resolveSwitch 0 "w" createInitialState "avatar-0" initialAvatar0
        "turn" (some { angle := some (validateTurnAngle (some 47)) })
        none).newOrientation ∧
    (resolveSwitch 0 "w" createInitialState "avatar-0" initialAvatar0
        "turn" (some { angle := some (validateTurnAngle (some 47)) })
        none).newOrientation < 360 ∧
    (∃ k : ℤ, (resolveSwitch 0 "w" createInitialState "avatar-0"
        initialAvatar0 "turn"
        (some { angle := some (validateTurnAngle (some 47)) })
        none).newOrientation =
      initialAvatar0.orientation + validateTurnAngle (some 47) + 360 * k) ∧
    validateTurnAngle (some 47) = 60 :=
  c4_turn_snap_mod 0 "w" createInitialState "avatar-0" initialAvatar0
    (some 47) none (by unfold initialAvatar0; norm_num)
    (by unfold initialAvatar0; norm_num)

/-! ### Structural lemmas about `resolveSwitch` and `executeDecision` -/

/-- A per-avatar rewrite that can change only the conversation fields
(`conversationTarget`, `currentAction`). -/
def PreservesAvatarShape (g : AvatarState → AvatarState) : Prop :=
  ∀ a, (g a).id = a.id ∧ (g a).position = a.position ∧
    (g a).orientation = a.orientation ∧ (g a).settings = a.settings ∧
    (g a).nextDecisionTime = a.nextDecisionTime ∧
    (g a).thought = a.thought ∧ (g a).lastActionTime = a.lastActionTime

theorem preservesAvatarShape_id : PreservesAvatarShape id :=
  fun _ => ⟨rfl, rfl, rfl, rfl, rfl, rfl, rfl⟩

/-- Every branch of the resolver's switch produces its `nextAvatars` as a
shape-preserving `map` over the previous avatar list. -/
theorem resolveSwitch_nextAvatars_map (now : ℝ) (fc : String)
    (prev : AppState) (avatarId : String) (ca : AvatarState) (ua : String)
    (params : Option LLMParams) (th : Option String) :
    ∃ g : AvatarState → AvatarState, PreservesAvatarShape g ∧
      (resolveSwitch now fc prev avatarId ca ua params th).nextAvatars =
        prev.avatars.map g := by
  by_cases h1 : ua = "turn"
  · subst h1
    refine ⟨id, preservesAvatarShape_id, ?_⟩
    rw [List.map_id, turn_branch_characterization]
    rfl
  by_cases h2 : ua = "move"
  · subst h2
    refine ⟨id, preservesAvatarShape_id, ?_⟩
    rw [List.map_id, move_branch_characterization]
    split <;> rfl
  unfold resolveSwitch
  rw [if_neg h1, if_neg h2]
  by_cases h3 : ua = "interact_object"
  · rw [if_pos h3]
    exact ⟨id, preservesAvatarShape_id, (List.map_id _).symm⟩
  rw [if_neg h3]
  by_cases h4 : ua = "initiate_conversation"
  · rw [if_pos h4]
    dsimp only
    cases hT : params.bind (·.targetId) with
    | none => exact ⟨id, preservesAvatarShape_id, (List.map_id _).symm⟩
    | some tid =>
      cases hM : params.bind (·.message) with
      | none => exact ⟨id, preservesAvatarShape_id, (List.map_id _).symm⟩
      | some msg =>
        dsimp only
        by_cases hE : tid = "" ∨ msg = ""
        · rw [if_pos hE]
          exact ⟨id, preservesAvatarShape_id, (List.map_id _).symm⟩
        rw [if_neg hE]
        by_cases hCT : ca.conversationTarget.isSome
        · rw [if_pos hCT]
          exact ⟨id, preservesAvatarShape_id, (List.map_id _).symm⟩
        rw [if_neg hCT]
        cases hF : prev.avatars.find? (fun a => a.id == tid) with
        | none => exact ⟨id, preservesAvatarShape_id, (List.map_id _).symm⟩
        | some targetAvatar =>
          dsimp only
          by_cases hS : tid ≠ avatarId
          · rw [if_pos hS]
            by_cases hB : targetAvatar.conversationTarget.isSome
            · rw [if_pos hB]
              exact ⟨id, preservesAvatarShape_id, (List.map_id _).symm⟩
            · rw [if_neg hB]
              refine ⟨fun a =>
                if a.id = avatarId then
                  { a with conversationTarget := some tid,
                           currentAction := some "conversing" }
                else if a.id = tid then
                  { a with conversationTarget := some avatarId,
                           currentAction := some "conversing" }
                else a, ?_, rfl⟩
              intro a
              dsimp only
              split_ifs <;> exact ⟨rfl, rfl, rfl, rfl, rfl, rfl, rfl⟩
          · rw [if_neg hS]
            exact ⟨id, preservesAvatarShape_id, (List.map_id _).symm⟩
  rw [if_neg h4]
  by_cases h5 : ua = "continue_conversation"
  · rw [if_pos h5]
    dsimp only
    cases hT : params.bind (·.targetId) with
    | none => exact ⟨id, preservesAvatarShape_id, (List.map_id _).symm⟩
    | some tid =>
      cases hM : params.bind (·.message) with
      | none => exact ⟨id, preservesAvatarShape_id, (List.map_id _).symm⟩
      | some msg =>
        dsimp only
        by_cases hc : tid ≠ "" ∧ msg ≠ "" ∧ ca.conversationTarget = some tid
        · rw [if_pos hc]
          cases hF : prev.conversations.findIdx? (activeWith avatarId tid) with
          | none => exact ⟨id, preservesAvatarShape_id, (List.map_id _).symm⟩
          | some convIndex =>
            exact ⟨id, preservesAvatarShape_id, (List.map_id _).symm⟩
        · rw [if_neg hc]
          exact ⟨id, preservesAvatarShape_id, (List.map_id _).symm⟩
  rw [if_neg h5]
  by_cases h6 : ua = "disengage_conversation"
  · rw [if_pos h6]
    dsimp only
    cases hT : params.bind (·.targetId) with
    | none => exact ⟨id, preservesAvatarShape_id, (List.map_id _).symm⟩
    | some tid =>
      dsimp only
      by_cases hc : tid ≠ "" ∧ ca.conversationTarget = some tid
      · rw [if_pos hc]
        cases hF : prev.conversations.findIdx? (activeWith avatarId tid) with
        | none => exact ⟨id, preservesAvatarShape_id, (List.map_id _).symm⟩
        | some convIndex =>
          refine ⟨fun a =>
            if a.id = avatarId ∨ a.id = tid then
              { a with currentAction := none, conversationTarget := none }
            else a, ?_, rfl⟩
          intro a
          dsimp only
          split_ifs <;> exact ⟨rfl, rfl, rfl, rfl, rfl, rfl, rfl⟩
      · rw [if_neg hc]
        exact ⟨id, preservesAvatarShape_id, (List.map_id _).symm⟩
  rw [if_neg h6]
  by_cases h7 : ua = "think"
  · rw [if_pos h7]
    exact ⟨id, preservesAvatarShape_id, (List.map_id _).symm⟩
  · rw [if_neg h7]
    exact ⟨id, preservesAvatarShape_id, (List.map_id _).symm⟩

/-- When the acting avatar is found and ids are distinct, `executeDecision`
is an id-keyed `map` over the previous avatar list. -/
theorem executeDecision_found (now : ℝ) (oracle : OracleOutcome)
    (fc avatarId : String) (decision : LLMDecision) (prev : AppState)
    (ca : AvatarState) (g : AvatarState → AvatarState)
    (hfind : prev.avatars.find? (fun a => a.id == avatarId) = some ca)
    (hnd : (prev.avatars.map (·.id)).Nodup)
    (hg : (resolveSwitch now fc prev avatarId ca
        (preResolve prev avatarId decision oracle).1
        (preResolve prev avatarId decision oracle).2.1
        (preResolve prev avatarId decision oracle).2.2).nextAvatars =
      prev.avatars.map g) :
    executeDecision now oracle fc avatarId decision prev =
      { prev with
        avatars := prev.avatars.map fun a =>
          if a.id = avatarId then
            resolvedAvatarUpdate now prev.simulation.mode
              (resolveSwitch now fc prev avatarId ca
                (preResolve prev avatarId decision oracle).1
                (preResolve prev avatarId decision oracle).2.1
                (preResolve prev avatarId decision oracle).2.2)
              (min 10000 (max 100
                (((preResolve prev avatarId decision oracle).2.1.bind
                    (·.duration)).getD ca.settings.rateLimit)))
              (g a)
          else g a,
        conversations := (resolveSwitch now fc prev avatarId ca
          (preResolve prev avatarId decision oracle).1
          (preResolve prev avatarId decision oracle).2.1
          (preResolve prev avatarId decision oracle).2.2).nextConversations } := by
  unfold executeDecision
  rw [hfind]
  dsimp only
  rw [hg]
  rw [mapIdx_update_findIdx (·.id) prev.avatars g _ avatarId hnd]

theorem idle_branch_characterization (now : ℝ) (fc : String)
    (prev : AppState) (avatarId : String) (ca : AvatarState)
    (params : Option LLMParams) (th : Option String) :
    resolveSwitch now fc prev avatarId ca "idle" params th =
      unchangedResult prev ca "idle" th := by
  unfold resolveSwitch
  rw [if_neg (by decide), if_neg (by decide), if_neg (by decide),
    if_neg (by decide), if_neg (by decide), if_neg (by decide),
    if_neg (by decide)]

theorem resolvedAvatarUpdate_id (now : ℝ) (mode : String) (r : SwitchResult)
    (d : ℝ) (a : AvatarState) :
    (resolvedAvatarUpdate now mode r d a).id = a.id := rfl

/-- Looking up the acting avatar after the id-keyed update map. -/
theorem find?_of_update_map (l : List AvatarState) (aid : String)
    (ca : AvatarState) (upd g : AvatarState → AvatarState)
    (hfind : l.find? (fun a => a.id == aid) = some ca)
    (hgid : ∀ a, (g a).id = a.id) (hupdid : ∀ a, (upd a).id = a.id) :
    (l.map fun a => if a.id = aid then upd (g a) else g a).find?
        (fun a => a.id == aid) = some (upd (g ca)) := by
  rw [List.find?_map]
  have hfun : ((fun a : AvatarState => a.id == aid) ∘
      (fun a => if a.id = aid then upd (g a) else g a)) =
      fun a => a.id == aid := by
    funext a
    by_cases h : a.id = aid
    · simp [h, hupdid, hgid]
    · simp [h, hgid]
  rw [hfun, hfind]
  have hca : ca.id = aid := by simpa using List.find?_some hfind
  simp [hca]

/-- `(preResolve …).2.1`: `interact_object` replaces the parameters with a
bare 500 ms duration; every other action keeps the decision's parameters. -/
theorem preResolve_params (prev : AppState) (avatarId : String)
    (decision : LLMDecision) (oracle : OracleOutcome) :
    (preResolve prev avatarId decision oracle).2.1 =
      if decision.action = "interact_object" then
        some { duration := some 500 }
      else decision.parameters := by
  unfold preResolve
  by_cases hI : decision.action = "interact_object"
  · rw [if_pos hI, if_pos hI]
    dsimp only
    cases prev.objects.find? (fun o =>
        some o.id == decision.parameters.bind (·.targetId)) with
    | none =>
      cases prev.avatars.find? (fun a => a.id == avatarId) <;> rfl
    | some obj =>
      cases prev.avatars.find? (fun a => a.id == avatarId) <;> rfl
  · rw [if_neg hI, if_neg hI]
    by_cases hT : decision.action = "think"
    · rw [if_pos hT]
    · rw [if_neg hT]

/-- `(preResolve …).1` of an `interact_object` decision is always `idle`. -/
theorem preResolve_action_interact (prev : AppState) (avatarId : String)
    (decision : LLMDecision) (oracle : OracleOutcome)
    (hact : decision.action = "interact_object") :
    (preResolve prev avatarId decision oracle).1 = "idle" := by
  unfold preResolve
  rw [if_pos hact]
  dsimp only
  cases prev.objects.find? (fun o =>
      some o.id == decision.parameters.bind (·.targetId)) with
  | none => cases prev.avatars.find? (fun a => a.id == avatarId) <;> rfl
  | some obj => cases prev.avatars.find? (fun a => a.id == avatarId) <;> rfl

/-- The generic outcome of resolving a decision whose `preResolve` phase
produced action `"idle"`: the stored avatar is found again, its
`currentAction` is absent, its `nextDecisionTime` is `now` plus the clamped
resolved duration, and its rationale is the pre-phase rationale. -/
theorem idle_resolution_fields (now : ℝ) (oracle : OracleOutcome)
    (fc avatarId : String) (decision : LLMDecision) (prev : AppState)
    (ca : AvatarState)
    (hfind : prev.avatars.find? (fun a => a.id == avatarId) = some ca)
    (hnd : (prev.avatars.map (·.id)).Nodup)
    (hpre1 : (preResolve prev avatarId decision oracle).1 = "idle") :
    ∃ a', (executeDecision now oracle fc avatarId decision prev).avatars.find?
        (fun a => a.id == avatarId) = some a' ∧
      a'.currentAction = none ∧
      a'.nextDecisionTime = now + min 10000 (max 100
        (((preResolve prev avatarId decision oracle).2.1.bind
          (·.duration)).getD ca.settings.rateLimit)) ∧
      a'.thought = (preResolve prev avatarId decision oracle).2.2 := by
  obtain ⟨g, hgshape, hg⟩ := resolveSwitch_nextAvatars_map now fc prev
    avatarId ca (preResolve prev avatarId decision oracle).1
    (preResolve prev avatarId decision oracle).2.1
    (preResolve prev avatarId decision oracle).2.2
  have hexec := executeDecision_found now oracle fc avatarId decision prev
    ca g hfind hnd hg
  rw [hexec]
  dsimp only
  rw [find?_of_update_map prev.avatars avatarId ca
    (resolvedAvatarUpdate now prev.simulation.mode
      (resolveSwitch now fc prev avatarId ca
        (preResolve prev avatarId decision oracle).1
        (preResolve prev avatarId decision oracle).2.1
        (preResolve prev avatarId decision oracle).2.2)
      (min 10000 (max 100
        (((preResolve prev avatarId decision oracle).2.1.bind
          (·.duration)).getD ca.settings.rateLimit))))
    g hfind (fun a => (hgshape a).1) (fun a => rfl)]
  refine ⟨_, rfl, ?_, rfl, ?_⟩
  · unfold resolvedAvatarUpdate
    dsimp only
    rw [hpre1, idle_branch_characterization]
    dsimp only [unchangedResult]
    rw [if_pos (Or.inl rfl)]
  · unfold resolvedAvatarUpdate
    dsimp only
    rw [hpre1, idle_branch_characterization]
    rfl

/-! ### C6 — `interact_object` resolution -/

/-- The text produced by `interact_object` resolution that is merged into
the rationale: the oracle's reaction on success, the error message on
failure, or the not-found annotation. -/
def interactOracleText (prev : AppState) (decision : LLMDecision)
    (oracle : OracleOutcome) : String :=
  match prev.objects.find? (fun o =>
      some o.id == decision.parameters.bind (·.targetId)), oracle with
  | some _, .success reaction => reaction
  | some _, .failure msg => msg
  | none, _ =>
    "(Target object " ++ optShow (decision.parameters.bind (·.targetId)) ++
      " not found)"

/-- The pre-phase rationale of an `interact_object` decision ends with the
oracle text. -/
theorem preResolve_thought_interact (prev : AppState) (avatarId : String)
    (decision : LLMDecision) (oracle : OracleOutcome) (ca : AvatarState)
    (hact : decision.action = "interact_object")
    (hfind : prev.avatars.find? (fun a => a.id == avatarId) = some ca) :
    ∃ s1, (preResolve prev avatarId decision oracle).2.2 =
      some (s1 ++ interactOracleText prev decision oracle) := by
  unfold preResolve interactOracleText
  rw [if_pos hact]
  dsimp only
  cases ho : prev.objects.find? (fun o =>
      some o.id == decision.parameters.bind (·.targetId)) with
  | none =>
    rw [hfind]
    dsimp only [annotate]
    exact ⟨thoughtAndSpace (jsOrString decision.thought
      (if decision.action = "think" then some "Thinking..." else none)), rfl⟩
  | some obj =>
    rw [hfind]
    cases oracle with
    | success reaction =>
      exact ⟨"Interacted with " ++
        optShow (decision.parameters.bind (·.targetId)) ++ ". Note: \"" ++
        obj.description ++ "\". Reaction: ", rfl⟩
    | failure msg =>
      exact ⟨"Interacted with " ++
        optShow (decision.parameters.bind (·.targetId)) ++
        ". Failed to process reaction: ", rfl⟩

/-- C6: resolving an `interact_object` decision — whether or not the target
object exists and whether the Interaction Oracle succeeds or fails — always
leaves the acting avatar with `currentAction` absent and
`nextDecisionTime = now + 500`, with the oracle's reaction or the
error/not-found reason merged into the avatar's rationale text. -/
theorem c6_interact_object_idle_500 (now : ℝ) (oracle : OracleOutcome)
    (fc avatarId : String) (decision : LLMDecision) (prev : AppState)
    (ca : AvatarState)
    (hact : decision.action = "interact_object")
    (hfind : prev.avatars.find? (fun a => a.id == avatarId) = some ca)
    (hnd : (prev.avatars.map (·.id)).Nodup) :
    ∃ a', (executeDecision now oracle fc avatarId decision
        prev).avatars.find? (fun a => a.id == avatarId) = some a' ∧
      a'.currentAction = none ∧
      a'.nextDecisionTime = now + 500 ∧
      ∃ s1, a'.thought =
        some (s1 ++ interactOracleText prev decision oracle) := by
  obtain ⟨a', hfa, hca', hndt, hth⟩ := idle_resolution_fields now oracle fc
    avatarId decision prev ca hfind hnd
    (preResolve_action_interact prev avatarId decision oracle hact)
  refine ⟨a', hfa, hca', ?_, ?_⟩
  · rw [hndt, preResolve_params, if_pos hact]
    have hbind : ((some { duration := some 500 } :
        Option LLMParams).bind (·.duration)).getD ca.settings.rateLimit =
        (500 : ℝ) := rfl
    rw [hbind, max_eq_right (by norm_num : (100:ℝ) ≤ 500),
      min_eq_right (by norm_num : (500:ℝ) ≤ 10000)]
  · obtain ⟨s1, hs⟩ := preResolve_thought_interact prev avatarId decision
      oracle ca hact hfind
    exact ⟨s1, by rw [hth, hs]⟩

/-- The decision used in the C6 witness. -/
def c6Decision : LLMDecision :=
  { action := "interact_object",
    parameters := some { targetId := some "object-2" } }

/-- Witness for `c6_interact_object_idle_500` on the initial world. -/
theorem c6_interact_object_idle_500_witness :
    ∃ a', (executeDecision 0 (.success "It glows warmly.") "w" "avatar-0"
        c6Decision createInitialState).avatars.find?
        (fun a => a.id == "avatar-0") = some a' ∧
      a'.currentAction = none ∧
      a'.nextDecisionTime = 0 + 500 ∧
      ∃ s1, a'.thought = some (s1 ++ interactOracleText createInitialState
        c6Decision (.success "It glows warmly.")) :=
  c6_interact_object_idle_500 0 (.success "It glows warmly.") "w" "avatar-0"
    c6Decision createInitialState initialAvatar0 rfl rfl (by decide)

/-! ### C7 — next-decision delay and action normalization -/

/-- The decision used in the C7 counterexample: an `interact_object`
decision that carries its own `duration` parameter of 3000 ms. -/
def c7Decision : LLMDecision :=
  { action := "interact_object",
    parameters := some { targetId := some "object-2",
                         duration := some 3000 } }

/-- C7 (counterexample): after resolving an `interact_object` decision with
`parameters.duration = 3000`, the avatar's `nextDecisionTime` is
`now + 500`, not `now + 3000` as the claim's formula
(`now + clamp(parameters.duration)`) predicts: the resolver replaces an
`interact_object` decision's parameters with a bare 500 ms duration. -/
theorem c7_counterexample :
    ∃ a', (executeDecision 0 (.success "ok") "w" "avatar-0" c7Decision
        createInitialState).avatars.find? (fun a => a.id == "avatar-0") =
        some a' ∧
      a'.nextDecisionTime = 0 + 500 ∧
      c7Decision.parameters.bind (·.duration) = some 3000 ∧
      (0 : ℝ) + 500 ≠ 0 + min 10000 (max 100 (3000 : ℝ)) := by
  obtain ⟨a', hfa, _, hndt, _⟩ := idle_resolution_fields 0 (.success "ok")
    "w" "avatar-0" c7Decision createInitialState initialAvatar0 rfl
    (by decide) (preResolve_action_interact _ _ _ _ rfl)
  refine ⟨a', hfa, ?_, rfl, ?_⟩
  · rw [hndt, preResolve_params,
      if_pos (show c7Decision.action = "interact_object" from rfl)]
    have hbind : ((some { duration := some 500 } :
        Option LLMParams).bind (·.duration)).getD
        initialAvatar0.settings.rateLimit = (500 : ℝ) := rfl
    rw [hbind, max_eq_right (by norm_num : (100:ℝ) ≤ 500),
      min_eq_right (by norm_num : (500:ℝ) ≤ 10000)]
  · rw [max_eq_right (by norm_num : (100:ℝ) ≤ 3000),
      min_eq_right (by norm_num : (3000:ℝ) ≤ 10000)]
    norm_num

/-- C7 (amended): after the resolver applies a decision, the acting
avatar's `nextDecisionTime` is `now` plus the clamped-to-`[100, 10000]`
resolved duration, where the resolved duration is 500 for
`interact_object` decisions (whose parameters are replaced) and otherwise
the decision's `parameters.duration`, falling back to the avatar's
`settings.rateLimit`; and the stored `currentAction` is absent whenever the
resolved action is `idle` or `thinking`. -/
theorem c7_delay_and_action_normalization (now : ℝ)
    (oracle : OracleOutcome) (fc avatarId : String)
    (decision : LLMDecision) (prev : AppState) (ca : AvatarState)
    (hfind : prev.avatars.find? (fun a => a.id == avatarId) = some ca)
    (hnd : (prev.avatars.map (·.id)).Nodup) :
    ∃ a', (executeDecision now oracle fc avatarId decision
        prev).avatars.find? (fun a => a.id == avatarId) = some a' ∧
      a'.nextDecisionTime = now + min 10000 (max 100
        (if decision.action = "interact_object" then (500 : ℝ)
         else (decision.parameters.bind (·.duration)).getD
           ca.settings.rateLimit)) ∧
      ((resolveSwitch now fc prev avatarId ca
          (preResolve prev avatarId decision oracle).1
          (preResolve prev avatarId decision oracle).2.1
          (preResolve prev avatarId decision oracle).2.2).updateAction =
            "idle" ∨
        (resolveSwitch now fc prev avatarId ca
          (preResolve prev avatarId decision oracle).1
          (preResolve prev avatarId decision oracle).2.1
          (preResolve prev avatarId decision oracle).2.2).updateAction =
            "thinking" →
        a'.currentAction = none) := by
  obtain ⟨g, hgshape, hg⟩ := resolveSwitch_nextAvatars_map now fc prev
    avatarId ca (preResolve prev avatarId decision oracle).1
    (preResolve prev avatarId decision oracle).2.1
    (preResolve prev avatarId decision oracle).2.2
  have hexec := executeDecision_found now oracle fc avatarId decision prev
    ca g hfind hnd hg
  rw [hexec]
  dsimp only
  rw [find?_of_update_map prev.avatars avatarId ca
    (resolvedAvatarUpdate now prev.simulation.mode
      (resolveSwitch now fc prev avatarId ca
        (preResolve prev avatarId decision oracle).1
        (preResolve prev avatarId decision oracle).2.1
        (preResolve prev avatarId decision oracle).2.2)
      (min 10000 (max 100
        (((preResolve prev avatarId decision oracle).2.1.bind
          (·.duration)).getD ca.settings.rateLimit))))
    g hfind (fun a => (hgshape a).1) (fun a => rfl)]
  refine ⟨_, rfl, ?_, ?_⟩
  · show now + _ = now + _
    rw [preResolve_params]
    by_cases hI : decision.action = "interact_object"
    · rw [if_pos hI, if_pos hI]
      rfl
    · rw [if_neg hI, if_neg hI]
  · intro h
    show (if _ ∨ _ then none else _) = none
    rw [if_pos h]

/-- Witness for `c7_delay_and_action_normalization`: an `idle` decision
with duration 250 on the initial world. -/
theorem c7_delay_and_action_normalization_witness :
    ∃ a', (executeDecision 0 (.success "") "w" "avatar-0"
        { action := "idle", parameters := some { duration := some 250 } }
        createInitialState).avatars.find? (fun a => a.id == "avatar-0") =
        some a' ∧
      a'.nextDecisionTime = 0 + min 10000 (max 100
        (if ({ action := "idle",
               parameters := some { duration := some 250 } } :
             LLMDecision).action = "interact_object" then (500 : ℝ)
         else ((({ action := "idle",
                   parameters := some { duration := some 250 } } :
             LLMDecision).parameters.bind (·.duration)).getD
           initialAvatar0.settings.rateLimit))) ∧
      ((resolveSwitch 0 "w" createInitialState "avatar-0" initialAvatar0
          (preResolve createInitialState "avatar-0"
            { action := "idle", parameters := some { duration := some 250 } }
            (.success "")).1
          (preResolve createInitialState "avatar-0"
            { action := "idle", parameters := some { duration := some 250 } }
            (.success "")).2.1
          (preResolve createInitialState "avatar-0"
            { action := "idle", parameters := some { duration := some 250 } }
            (.success "")).2.2).updateAction = "idle" ∨
        (resolveSwitch 0 "w" createInitialState "avatar-0" initialAvatar0
          (preResolve createInitialState "avatar-0"
            { action := "idle", parameters := some { duration := some 250 } }
            (.success "")).1
          (preResolve createInitialState "avatar-0"
            { action := "idle", parameters := some { duration := some 250 } }
            (.success "")).2.1
          (preResolve createInitialState "avatar-0"
            { action := "idle", parameters := some { duration := some 250 } }
            (.success "")).2.2).updateAction = "thinking" →
        a'.currentAction = none) :=
  c7_delay_and_action_normalization 0 (.success "") "w" "avatar-0"
    { action := "idle", parameters := some { duration := some 250 } }
    createInitialState initialAvatar0 rfl (by decide)

/-! ### C8 — resizing to the current size -/

/-- The world used in the C8 counterexample: the first avatar sits at
(2, 50), closer than 8 units to the left edge of the 500×500 board. -/
def c8State : AppState :=
  { createInitialState with
    avatars := [{ initialAvatar0 with position := ⟨2, 50⟩ },
                initialAvatar1] }

/-- C8 (counterexample): resizing the board to its current 500×500 size
moves an avatar at (2, 50) to (8, 50) — `resizeBoard` clamps avatars 8
units inside the bounds, so resizing to the current size is *not* a no-op
on all entity positions. -/
theorem c8_counterexample :
    c8State.simulation.boardSize = ⟨500, 500⟩ ∧
    c8State.avatars.map (fun a => a.position) = [⟨2, 50⟩, ⟨450, 450⟩] ∧
    (resizeBoard c8State.simulation.boardSize c8State).avatars.map
      (fun a => a.position) = [⟨8, 50⟩, ⟨450, 450⟩] ∧
    (⟨8, 50⟩ : Vector2) ≠ ⟨2, 50⟩ := by
  refine ⟨rfl, rfl, ?_, ?_⟩
  · unfold resizeBoard c8State createInitialState initialAvatar0
      initialAvatar1
    dsimp only
    norm_num [min_def, max_def]
  · intro h
    have := congrArg Vector2.x h
    norm_num at this

/-- C8 (amended): resizing the board to its current size is a no-op
provided the current size is at least 100×100 and every entity already lies
in its inset region — avatars at least 8 units inside the bounds, objects
at least 5, and each obstacle with its top-left corner in
`[0, size - extent]` and strictly inside the board.  (Entities outside
those insets are pulled inward by the resize, so the unconditional claim
fails.) -/
theorem c8_resize_noop_on_inset_entities (prev : AppState)
    (hw : 100 ≤ prev.simulation.boardSize.width)
    (hh : 100 ≤ prev.simulation.boardSize.height)
    (hav : ∀ a ∈ prev.avatars,
      8 ≤ a.position.x ∧
      a.position.x ≤ prev.simulation.boardSize.width - 8 ∧
      8 ≤ a.position.y ∧
      a.position.y ≤ prev.simulation.boardSize.height - 8)
    (hobj : ∀ o ∈ prev.objects,
      5 ≤ o.position.x ∧
      o.position.x ≤ prev.simulation.boardSize.width - 5 ∧
      5 ≤ o.position.y ∧
      o.position.y ≤ prev.simulation.boardSize.height - 5)
    (hobs : ∀ ob ∈ prev.obstacles,
      0 ≤ ob.position.x ∧
      ob.position.x ≤ prev.simulation.boardSize.width - ob.size.x ∧
      0 ≤ ob.position.y ∧
      ob.position.y ≤ prev.simulation.boardSize.height - ob.size.y ∧
      ob.position.x < prev.simulation.boardSize.width ∧
      ob.position.y < prev.simulation.boardSize.height) :
    resizeBoard prev.simulation.boardSize prev = prev := by
  obtain ⟨avs, objs, obss, convs, sim⟩ := prev
  obtain ⟨mode, bs, td, ts⟩ := sim
  obtain ⟨w, h⟩ := bs
  dsimp only at hw hh hav hobj hobs ⊢
  unfold resizeBoard
  dsimp only
  rw [max_eq_right hw, max_eq_right hh]
  have havs : avs.map (fun a =>
      { a with position := (⟨min (max a.position.x (0 + 8)) (w - 8),
          min (max a.position.y (0 + 8)) (h - 8)⟩ : Vector2) }) = avs := by
    refine (List.map_congr_left ?_).trans (List.map_id _)
    intro a ha
    obtain ⟨h1, h2, h3, h4⟩ := hav a ha
    have hx : min (max a.position.x (0 + 8)) (w - 8) = a.position.x := by
      rw [max_eq_left (by linarith), min_eq_left h2]
    have hy : min (max a.position.y (0 + 8)) (h - 8) = a.position.y := by
      rw [max_eq_left (by linarith), min_eq_left h4]
    show ({ a with position := _ } : AvatarState) = a
    rw [hx, hy]
  have hobjs : objs.map (fun o =>
      { o with position := (⟨min (max o.position.x (0 + 5)) (w - 5),
          min (max o.position.y (0 + 5)) (h - 5)⟩ : Vector2) }) = objs := by
    refine (List.map_congr_left ?_).trans (List.map_id _)
    intro o ho
    obtain ⟨h1, h2, h3, h4⟩ := hobj o ho
    have hx : min (max o.position.x (0 + 5)) (w - 5) = o.position.x := by
      rw [max_eq_left (by linarith), min_eq_left h2]
    have hy : min (max o.position.y (0 + 5)) (h - 5) = o.position.y := by
      rw [max_eq_left (by linarith), min_eq_left h4]
    show ({ o with position := _ } : ArenaObject) = o
    rw [hx, hy]
  have hobss : obss.map (fun ob =>
      { ob with position := (⟨min (max ob.position.x 0) (w - ob.size.x),
          min (max ob.position.y 0) (h - ob.size.y)⟩ : Vector2) }) = obss := by
    refine (List.map_congr_left ?_).trans (List.map_id _)
    intro ob hob
    obtain ⟨h1, h2, h3, h4, _, _⟩ := hobs ob hob
    have hx : min (max ob.position.x 0) (w - ob.size.x) = ob.position.x := by
      rw [max_eq_left h1, min_eq_left h2]
    have hy : min (max ob.position.y 0) (h - ob.size.y) = ob.position.y := by
      rw [max_eq_left h3, min_eq_left h4]
    show ({ ob with position := _ } : Obstacle) = ob
    rw [hx, hy]
  rw [havs, hobjs, hobss]
  have hfil : obss.filter (fun ob => decide (ob.position.x < w ∧
      ob.position.y < h)) = obss := by
    rw [List.filter_eq_self]
    intro ob hob
    obtain ⟨_, _, _, _, h5, h6⟩ := hobs ob hob
    exact decide_eq_true ⟨h5, h6⟩
  rw [hfil]

/-- Witness for `c8_resize_noop_on_inset_entities`: the initial world. -/
theorem c8_resize_noop_on_inset_entities_witness :
    resizeBoard createInitialState.simulation.boardSize createInitialState =
      createInitialState := by
  refine c8_resize_noop_on_inset_entities createInitialState
    (by norm_num [createInitialState]) (by norm_num [createInitialState])
    ?_ ?_ ?_
  · intro a ha
    simp only [createInitialState, List.mem_cons, List.not_mem_nil,
      or_false] at ha
    rcases ha with rfl | rfl <;>
      norm_num [createInitialState, initialAvatar0, initialAvatar1]
  · intro o ho
    simp only [createInitialState, List.mem_cons, List.not_mem_nil,
      or_false] at ho
    rcases ho with rfl <;> norm_num [createInitialState]
  · intro ob hob
    simp only [createInitialState, List.mem_cons, List.not_mem_nil,
      or_false] at hob
    rcases hob with rfl | rfl <;> norm_num [createInitialState]

/-! ### C9 — obstacles on board resize -/

/-- The world used for C9: one obstacle at (300, 10) of size 10×10 on the
500×500 board; shrinking the board to 200×200 leaves the obstacle entirely
outside the new bounds. -/
def c9State : AppState :=
  { createInitialState with
    obstacles := [{ id := "ob-out", position := ⟨300, 10⟩,
                    size := ⟨10, 10⟩ }] }

/-- C9: on `resizeBoard ⟨200,200⟩`, the obstacle whose horizontal extent
`[300, 310]` lies entirely beyond the new width 200 is **not** removed: the
clamp `min (max x 0) (width - size.x)` runs first and pulls it back to
(190, 10), after which the "remove obstacles completely outside" filter
(`position < finalSize`) can never fire.  This contradicts both the claim
and the source's own comment on the filter. -/
theorem c9_obstacle_clamped_not_dropped :
    (200 : ℝ) ≤ 300 ∧
    c9State.obstacles.map (fun ob => ob.position) = [⟨300, 10⟩] ∧
    (resizeBoard ⟨200, 200⟩ c9State).obstacles.map (fun ob => ob.position) =
      [⟨190, 10⟩] ∧
    (resizeBoard ⟨200, 200⟩ c9State).obstacles.length = 1 := by
  refine ⟨by norm_num, rfl, ?_, ?_⟩
  · unfold resizeBoard c9State createInitialState
    dsimp only
    norm_num [min_def, max_def]
  · unfold resizeBoard c9State createInitialState
    dsimp only
    norm_num [min_def, max_def]

/-! ### C2 — at least two avatars in every reachable snapshot -/

/-- One state mutation of the modelled core: a decision resolution, an
avatar/object/obstacle edit, a board resize, or a reset.  The id generated
for a new avatar is fresh (`generateId` produces unique ids). -/
inductive SimStep : AppState → AppState → Prop where
  | decide (now : ℝ) (oracle : OracleOutcome) (fc avatarId : String)
      (decision : LLMDecision) (s : AppState) :
      SimStep s (executeDecision now oracle fc avatarId decision s)
  | addAv (newId : String) (pos : Vector2) (orient : ℝ) (s : AppState)
      (hfresh : newId ∉ s.avatars.map (·.id)) :
      SimStep s (addAvatar newId pos orient s)
  | removeAv (now : ℝ) (avatarId : String) (s : AppState) :
      SimStep s (removeAvatar now avatarId s)
  | resize (newSize : BoardSize) (s : AppState) :
      SimStep s (resizeBoard newSize s)
  | addObj (newId : String) (pos : Vector2) (s : AppState) :
      SimStep s (addObject newId pos s)
  | removeObj (objectId : String) (s : AppState) :
      SimStep s (removeObject objectId s)
  | updateObjDesc (objectId description : String) (s : AppState) :
      SimStep s (updateObjectDescription objectId description s)
  | addObs (newId : String) (pos size : Vector2) (s : AppState) :
      SimStep s (addObstacle newId pos size s)
  | removeObs (obstacleId : String) (s : AppState) :
      SimStep s (removeObstacle obstacleId s)
  | reset (s : AppState) : SimStep s createInitialState

/-- A world snapshot reachable from the initial state through the modelled
mutations. -/
def SimReachable (s : AppState) : Prop :=
  Relation.ReflTransGen SimStep createInitialState s

/-- `executeDecision` never changes the list of avatar ids. -/
theorem executeDecision_avatarIds (now : ℝ) (oracle : OracleOutcome)
    (fc avatarId : String) (decision : LLMDecision) (prev : AppState) :
    (executeDecision now oracle fc avatarId decision prev).avatars.map
      (·.id) = prev.avatars.map (·.id) := by
  unfold executeDecision
  cases hF : prev.avatars.find? (fun a => a.id == avatarId) with
  | none => rfl
  | some ca =>
    dsimp only
    obtain ⟨g, hgshape, hg⟩ := resolveSwitch_nextAvatars_map now fc prev
      avatarId ca (preResolve prev avatarId decision oracle).1
      (preResolve prev avatarId decision oracle).2.1
      (preResolve prev avatarId decision oracle).2.2
    rw [hg]
    refine Eq.trans (map_key_mapIdx (fun a : AvatarState => a.id) _ _ ?_) ?_
    · intro i a
      split_ifs <;> rfl
    · rw [List.map_map]
      exact List.map_congr_left fun a _ => (hgshape a).1

/-- With distinct ids, dropping one id from an avatar list removes at most
one element. -/
theorem length_filter_ne_key (aid : String) :
    ∀ (l : List AvatarState), ((l.map (·.id)).Nodup) →
    l.length ≤ (l.filter fun a => a.id ≠ aid).length + 1 := by
  intro l
  induction l with
  | nil => intro _; simp
  | cons x xs ih =>
    intro hnd
    have hx : x.id ∉ xs.map (·.id) := (List.nodup_cons.mp hnd).1
    have hnd' : (xs.map (·.id)).Nodup := (List.nodup_cons.mp hnd).2
    by_cases hk : x.id = aid
    · have hfil : (xs.filter fun a => a.id ≠ aid) = xs := by
        rw [List.filter_eq_self]
        intro a ha
        refine decide_eq_true ?_
        intro hEq
        exact hx (hk ▸ hEq ▸ List.mem_map_of_mem (·.id) ha)
      rw [List.filter_cons_of_neg (by simp [hk]), hfil]
      simp
    · rw [List.filter_cons_of_pos (by simp [hk])]
      have := ih hnd'
      simp only [List.length_cons]
      omega

/-- Mapping an id-preserving rewrite over a list keeps the ids nodup. -/
theorem nodup_map_key_of_preserve {f : AvatarState → AvatarState}
    (hf : ∀ a, (f a).id = a.id) {l : List AvatarState}
    (h : (l.map (·.id)).Nodup) : ((l.map f).map (·.id)).Nodup := by
  rw [List.map_map]
  have he : List.map ((fun x : AvatarState => x.id) ∘ f) l =
      List.map (fun x : AvatarState => x.id) l :=
    List.map_congr_left fun a _ => hf a
  rw [he]
  exact h

/-- Avatar count and id-distinctness are preserved by every modelled
mutation, hence hold in every reachable snapshot. -/
theorem simReachable_invariant (s : AppState) (hs : SimReachable s) :
    2 ≤ s.avatars.length ∧ (s.avatars.map (·.id)).Nodup := by
  unfold SimReachable at hs
  have hinit : 2 ≤ createInitialState.avatars.length ∧
      (createInitialState.avatars.map (·.id)).Nodup := by
    constructor
    · rfl
    · decide
  induction hs with
  | refl => exact hinit
  | tail hpath hstep ih =>
    rename_i b c
    obtain ⟨ihlen, ihnd⟩ := ih
    cases hstep with
    | decide now oracle fc avatarId decision s =>
      have hids := executeDecision_avatarIds now oracle fc avatarId
        decision b
      constructor
      · have h1 := congrArg List.length hids
        simp only [List.length_map] at h1
        omega
      · rw [hids]; exact ihnd
    | addAv newId pos orient s hfresh =>
      unfold addAvatar
      split_ifs with hcap
      · exact ⟨ihlen, ihnd⟩
      · dsimp only
        constructor
        · simp only [List.length_append, List.length_cons,
            List.length_nil]
          omega
        · rw [List.map_append]
          rw [List.nodup_append]
          refine ⟨ihnd, by simp, ?_⟩
          intro x hx
          simp only [List.map_cons, List.map_nil, List.mem_cons,
            List.not_mem_nil, or_false]
          intro hEq
          exact hfresh (hEq ▸ hx)
    | removeAv now avatarId s =>
      unfold removeAvatar
      split_ifs with hsmall
      · exact ⟨ihlen, ihnd⟩
      · dsimp only
        have hlen := length_filter_ne_key avatarId b.avatars ihnd
        constructor
        · rw [List.length_map]
          omega
        · apply nodup_map_key_of_preserve
          · intro a
            split_ifs <;> rfl
          · exact ihnd.sublist ((List.filter_sublist _).map _)
    | resize newSize s =>
      unfold resizeBoard
      dsimp only
      constructor
      · simp only [List.length_map]; exact ihlen
      · apply nodup_map_key_of_preserve
        · intro a
          rfl
        · exact ihnd
    | addObj newId pos s => exact ⟨ihlen, ihnd⟩
    | removeObj objectId s => exact ⟨ihlen, ihnd⟩
    | updateObjDesc objectId description s => exact ⟨ihlen, ihnd⟩
    | addObs newId pos size s => exact ⟨ihlen, ihnd⟩
    | removeObs obstacleId s => exact ⟨ihlen, ihnd⟩
    | reset s => exact hinit

/-- C2: every reachable world snapshot has at least two avatars — the
initial world has exactly two, and a `removeAvatar` call when only two
remain returns the previous snapshot unchanged. -/
theorem c2_avatar_floor :
    (∀ s, SimReachable s → 2 ≤ s.avatars.length) ∧
    createInitialState.avatars.length = 2 ∧
    (∀ (prev : AppState) (now : ℝ) (avatarId : String),
      prev.avatars.length = 2 → removeAvatar now avatarId prev = prev) := by
  refine ⟨fun s hs => (simReachable_invariant s hs).1, rfl, ?_⟩
  intro prev now avatarId hlen
  unfold removeAvatar
  rw [if_pos (by omega)]

/-- Witness for `c2_avatar_floor`: the initial state is reachable and has
exactly two avatars, so removal there is rejected unchanged. -/
theorem c2_avatar_floor_witness :
    2 ≤ createInitialState.avatars.length ∧
    removeAvatar 0 "avatar-0" createInitialState = createInitialState :=
  ⟨c2_avatar_floor.1 createInitialState Relation.ReflTransGen.refl,
   c2_avatar_floor.2.2 createInitialState 0 "avatar-0" rfl⟩

/-! ### C1 — the conversation pairing invariant -/

/-- The claimed invariant: every non-ended conversation joins two existing,
distinct avatars whose `conversationTarget`s point at each other, and every
avatar with a `conversationTarget` appears in exactly one non-ended
conversation with that partner (counted with the lookup predicate
`activeWith` that the source uses). -/
def ConvInvariant (s : AppState) : Prop :=
  (∀ c ∈ s.conversations, c.endTime = none →
    ∃ a ∈ s.avatars, ∃ b ∈ s.avatars,
      c.participants = [a.id, b.id] ∧ a.id ≠ b.id ∧
      a.conversationTarget = some b.id ∧
      b.conversationTarget = some a.id) ∧
  (∀ a ∈ s.avatars, ∀ t, a.conversationTarget = some t →
    s.conversations.countP (activeWith a.id t) = 1)

/-- A free avatar's id appears in no active conversation. -/
theorem no_active_conv_of_free (s : AppState)
    (hnd : (s.avatars.map (·.id)).Nodup) (hinv : ConvInvariant s)
    {a : AvatarState} (ha : a ∈ s.avatars)
    (hfree : a.conversationTarget = none)
    {c : Conversation} (hc : c ∈ s.conversations)
    (hact : c.endTime = none) : a.id ∉ c.participants := by
  intro hmem
  obtain ⟨x, hx, y, hy, hparts, hne, hxy, hyx⟩ := hinv.1 c hc hact
  rw [hparts] at hmem
  simp only [List.mem_cons, List.not_mem_nil, or_false] at hmem
  rcases hmem with hax | hay
  · have : a = x := nodup_key_inj hnd ha hx hax
    rw [this, hxy] at hfree
    exact Option.noConfusion hfree
  · have : a = y := nodup_key_inj hnd ha hy hay
    rw [this, hyx] at hfree
    exact Option.noConfusion hfree

/-- Under the invariant, no avatar converses with itself. -/
theorem target_ne_self (s : AppState)
    (hnd : (s.avatars.map (·.id)).Nodup) (hinv : ConvInvariant s)
    {a : AvatarState} (ha : a ∈ s.avatars) {t : String}
    (ht : a.conversationTarget = some t) : a.id ≠ t := by
  intro hEq
  have hcount := hinv.2 a ha t ht
  have hpos : 0 < s.conversations.countP (activeWith a.id t) := by omega
  rw [List.countP_pos] at hpos
  obtain ⟨c, hc, hp⟩ := hpos
  unfold activeWith at hp
  simp only [Bool.and_eq_true, decide_eq_true_eq] at hp
  obtain ⟨⟨hmem, _⟩, hend⟩ := hp
  obtain ⟨x, hx, y, hy, hparts, hne, hxy, hyx⟩ := hinv.1 c hc hend
  rw [hparts] at hmem
  simp only [List.mem_cons, List.not_mem_nil, or_false] at hmem
  rcases hmem with hax | hay
  · have hax' : a = x := nodup_key_inj hnd ha hx hax
    rw [hax', hxy] at ht
    have hyt : y.id = t := by injection ht
    exact hne (hax.symm.trans (hEq.trans hyt.symm))
  · have hay' : a = y := nodup_key_inj hnd ha hy hay
    rw [hay', hyx] at ht
    have hxt : x.id = t := by injection ht
    exact hne (hxt.trans (hEq.symm.trans hay))

/-- The invariant transfers along any rewrite of the world that preserves
avatar ids and targets (in both directions) and the active-conversation
structure. -/
theorem ConvInvariant_transfer (s s' : AppState)
    (hav : ∀ a' ∈ s'.avatars, ∃ a ∈ s.avatars,
      a'.id = a.id ∧ a'.conversationTarget = a.conversationTarget)
    (hav' : ∀ a ∈ s.avatars, ∃ a' ∈ s'.avatars,
      a'.id = a.id ∧ a'.conversationTarget = a.conversationTarget)
    (hc1 : ∀ c' ∈ s'.conversations, c'.endTime = none →
      ∃ c ∈ s.conversations, c.endTime = none ∧
        c'.participants = c.participants)
    (hc2 : ∀ x t, s'.conversations.countP (activeWith x t) =
      s.conversations.countP (activeWith x t))
    (hinv : ConvInvariant s) : ConvInvariant s' := by
  constructor
  · intro c' hc' hact'
    obtain ⟨c, hc, hact, hparts⟩ := hc1 c' hc' hact'
    obtain ⟨x, hx, y, hy, hp, hne, hxy, hyx⟩ := hinv.1 c hc hact
    obtain ⟨x', hx', hxid, hxt⟩ := hav' x hx
    obtain ⟨y', hy', hyid, hyt⟩ := hav' y hy
    refine ⟨x', hx', y', hy', ?_, ?_, ?_, ?_⟩
    · rw [hparts, hp, hxid, hyid]
    · rw [hxid, hyid]; exact hne
    · rw [hxt, hxy, hyid]
    · rw [hyt, hyx, hxid]
  · intro a' ha' t ht
    obtain ⟨a, ha, haid, hat⟩ := hav a' ha'
    rw [haid, hc2]
    exact hinv.2 a ha t (hat ▸ ht)

/-- The avatars of the C1 counterexample world: `A` and `B` are mid
conversation with each other. -/
def c1AvatarA : AvatarState :=
  { id := "A", position := ⟨10, 10⟩, orientation := 0,
    settings := INITIAL_AVATAR_SETTINGS, nextDecisionTime := 0,
    currentAction := some "conversing", conversationTarget := some "B" }

def c1AvatarB : AvatarState :=
  { id := "B", position := ⟨20, 10⟩, orientation := 180,
    settings := INITIAL_AVATAR_SETTINGS, nextDecisionTime := 0,
    currentAction := some "conversing", conversationTarget := some "A" }

def c1Conv : Conversation :=
  { id := "conv-1", participants := ["A", "B"], messages := [],
    startTime := 0, endTime := none }

def c1State : AppState :=
  { avatars := [c1AvatarA, c1AvatarB], objects := [], obstacles := [],
    conversations := [c1Conv],
    simulation := createInitialState.simulation }

/-- A `continue_conversation` decision whose target does not match the
avatar's current partner. -/
def c1BadContinue : LLMDecision :=
  { action := "continue_conversation",
    parameters := some { targetId := some "C", message := some "hi" } }

/-- The C1 counterexample world satisfies the conversation invariant. -/
theorem c1State_invariant : ConvInvariant c1State := by
  constructor
  · intro c hc hact
    simp only [c1State, List.mem_cons, List.not_mem_nil, or_false] at hc
    subst hc
    exact ⟨c1AvatarA, by simp [c1State], c1AvatarB, by simp [c1State],
      rfl, by decide, rfl, rfl⟩
  · intro a ha t ht
    simp only [c1State, List.mem_cons, List.not_mem_nil, or_false] at ha
    rcases ha with rfl | rfl
    · have htB : t = "B" := by
        have := ht
        unfold c1AvatarA at this
        injection this with h
        exact h.symm
      subst htB
      rfl
    · have htA : t = "A" := by
        have := ht
        unfold c1AvatarB at this
        injection this with h
        exact h.symm
      subst htA
      rfl

/-- C1 (counterexample): a mismatched `continue_conversation` breaks the
invariant — `A` is conversing with `B` and issues a continue directed at
the nonexistent `"C"`; the resolver's failure branch clears **only** `A`'s
`conversationTarget`, while the (A,B) conversation stays active and `B`
still points at `A`. -/
theorem c1_counterexample :
    ConvInvariant c1State ∧
    ¬ ConvInvariant (executeDecision 0 (.success "") "w" "A" c1BadContinue
      c1State) := by
  constructor
  · exact c1State_invariant
  · have hpost : (executeDecision 0 (.success "") "w" "A" c1BadContinue
        c1State).avatars.map (fun a => (a.id, a.conversationTarget)) =
        [("A", none), ("B", some "A")] := rfl
    have hpconv : (executeDecision 0 (.success "") "w" "A" c1BadContinue
        c1State).conversations = [c1Conv] := rfl
    rintro ⟨h1, _⟩
    have hmem : c1Conv ∈ (executeDecision 0 (.success "") "w" "A"
        c1BadContinue c1State).conversations := by
      rw [hpconv]; exact List.mem_cons_self _ _
    obtain ⟨a, ha, b, hb, hparts, hne, hta, htb⟩ := h1 c1Conv hmem rfl
    have hpair : (a.id, a.conversationTarget) ∈
        [(("A" : String), (none : Option String)), ("B", some "A")] := by
      rw [← hpost]
      exact List.mem_map_of_mem _ ha
    have haid : a.id = "A" := by
      have : c1Conv.participants = [a.id, b.id] := hparts
      unfold c1Conv at this
      injection this with h1' h2'
      exact h1'.symm
    rw [haid] at hpair
    simp only [List.mem_cons, List.not_mem_nil, or_false, Prod.mk.injEq] at hpair
    rcases hpair with ⟨_, htnone⟩ | ⟨hAB, _⟩
    · rw [htnone] at hta
      exact Option.noConfusion hta
    · exact absurd hAB (by decide)

/-- Under the invariant, an avatar sitting in an active conversation that
also contains `aid` (and is not `aid` itself) points at `aid`. -/
theorem partner_points_at_removed (prev : AppState) (aid : String)
    (hnd : (prev.avatars.map (·.id)).Nodup) (hinv : ConvInvariant prev)
    {x : AvatarState} (hx : x ∈ prev.avatars) {c2 : Conversation}
    (hc2 : c2 ∈ prev.conversations) (hact2 : c2.endTime = none)
    (hxmem : x.id ∈ c2.participants) (haidmem : aid ∈ c2.participants)
    (hxaid : x.id ≠ aid) : x.conversationTarget = some aid := by
  obtain ⟨u, hu, v, hv, hparts2, hne2, huv, hvu⟩ := hinv.1 c2 hc2 hact2
  rw [hparts2] at hxmem haidmem
  simp only [List.mem_cons, List.not_mem_nil, or_false] at hxmem haidmem
  rcases hxmem with h1 | h1 <;> rcases haidmem with h2 | h2
  · exact absurd (h1.trans h2.symm) hxaid
  · have hxu : x = u := nodup_key_inj hnd hx hu h1
    rw [hxu, huv, ← h2]
  · have hxv : x = v := nodup_key_inj hnd hx hv h1
    rw [hxv, hvu, ← h2]
  · exact absurd (h1.trans h2.symm) hxaid

/-- `removeAvatar` preserves the conversation invariant. -/
theorem removeAvatar_preserves (now : ℝ) (aid : String) (prev : AppState)
    (hnd : (prev.avatars.map (·.id)).Nodup) (hinv : ConvInvariant prev) :
    ConvInvariant (removeAvatar now aid prev) := by
  unfold removeAvatar
  split_ifs with hsmall
  · exact hinv
  dsimp only
  have hPmem : ∀ x : String,
      (x ∈ (prev.conversations.filter fun c =>
        decide (aid ∈ c.participants ∧ c.endTime = none)).flatMap
        (fun c => c.participants.filter fun p => p ≠ aid)) ↔
      ∃ c, c ∈ prev.conversations ∧
        (aid ∈ c.participants ∧ c.endTime = none) ∧
        x ∈ c.participants ∧ x ≠ aid := by
    intro x
    constructor
    · intro hx
      rw [List.mem_flatMap] at hx
      obtain ⟨c, hcf, hxc⟩ := hx
      rw [List.mem_filter] at hcf
      rw [List.mem_filter] at hxc
      refine ⟨c, hcf.1, of_decide_eq_true hcf.2, hxc.1,
        of_decide_eq_true hxc.2⟩
    · rintro ⟨c, hc, hcond, hxc, hxaid⟩
      rw [List.mem_flatMap]
      refine ⟨c, ?_, ?_⟩
      · rw [List.mem_filter]
        exact ⟨hc, decide_eq_true hcond⟩
      · rw [List.mem_filter]
        exact ⟨hxc, decide_eq_true hxaid⟩
  constructor
  · intro c' hc' hact'
    rw [List.mem_map] at hc'
    obtain ⟨c, hc, hmapc⟩ := hc'
    by_cases hcase : aid ∈ c.participants ∧ c.endTime = none
    · rw [if_pos hcase] at hmapc
      rw [← hmapc] at hact'
      exact absurd hact' (by simp)
    · rw [if_neg hcase] at hmapc
      subst hmapc
      obtain ⟨x, hx, y, hy, hparts, hne, hxy, hyx⟩ := hinv.1 c hc hact'
      have haidnot : aid ∉ c.participants := fun hmem => hcase ⟨hmem, hact'⟩
      have hxid : x.id ≠ aid := by
        intro h
        exact haidnot (h ▸ (by rw [hparts]; exact List.mem_cons_self _ _))
      have hyid : y.id ≠ aid := by
        intro h
        refine haidnot (h ▸ ?_)
        rw [hparts]
        exact List.mem_cons_of_mem _ (List.mem_cons_self _ _)
      have hxP : x.id ∉ (prev.conversations.filter fun c =>
          decide (aid ∈ c.participants ∧ c.endTime = none)).flatMap
          (fun c => c.participants.filter fun p => p ≠ aid) := by
        intro hmem
        obtain ⟨c2, hc2, ⟨haid2, hact2⟩, hx2, _⟩ := (hPmem x.id).mp hmem
        have := partner_points_at_removed prev aid hnd hinv hx hc2 hact2
          hx2 haid2 hxid
        rw [hxy] at this
        have hyaid : y.id = aid := by injection this
        exact hyid hyaid
      have hyP : y.id ∉ (prev.conversations.filter fun c =>
          decide (aid ∈ c.participants ∧ c.endTime = none)).flatMap
          (fun c => c.participants.filter fun p => p ≠ aid) := by
        intro hmem
        obtain ⟨c2, hc2, ⟨haid2, hact2⟩, hy2, _⟩ := (hPmem y.id).mp hmem
        have := partner_points_at_removed prev aid hnd hinv hy hc2 hact2
          hy2 haid2 hyid
        rw [hyx] at this
        have hxaid : x.id = aid := by injection this
        exact hxid hxaid
      refine ⟨x, ?_, y, ?_, hparts, hne, hxy, hyx⟩
      · rw [List.mem_map]
        refine ⟨x, ?_, if_neg hxP⟩
        rw [List.mem_filter]
        exact ⟨hx, decide_eq_true hxid⟩
      · rw [List.mem_map]
        refine ⟨y, ?_, if_neg hyP⟩
        rw [List.mem_filter]
        exact ⟨hy, decide_eq_true hyid⟩
  · intro a' ha' t ht
    rw [List.mem_map] at ha'
    obtain ⟨a, hafil, hmapa⟩ := ha'
    rw [List.mem_filter] at hafil
    obtain ⟨ha, hane'⟩ := hafil
    have hane : a.id ≠ aid := of_decide_eq_true hane'
    by_cases haP : a.id ∈ (prev.conversations.filter fun c =>
        decide (aid ∈ c.participants ∧ c.endTime = none)).flatMap
        (fun c => c.participants.filter fun p => p ≠ aid)
    · rw [if_pos haP] at hmapa
      rw [← hmapa] at ht
      exact Option.noConfusion ht
    · rw [if_neg haP] at hmapa
      subst hmapa
      have hold := hinv.2 a ha t ht
      rw [List.countP_map]
      rw [List.countP_congr (fun c hc => ?_)]
      · exact hold
      · show (activeWith a.id t (if aid ∈ c.participants ∧ c.endTime = none
            then { c with endTime := some now } else c) = true) ↔
          (activeWith a.id t c = true)
        by_cases hcase : aid ∈ c.participants ∧ c.endTime = none
        · rw [if_pos hcase]
          have hanotin : a.id ∉ c.participants := by
            intro hin
            exact haP ((hPmem a.id).mpr ⟨c, hc, hcase, hin, hane⟩)
          unfold activeWith
          simp [hanotin]
        · rw [if_neg hcase]

/-- `executeDecision` is the identity when the acting avatar is absent. -/
theorem executeDecision_not_found (now : ℝ) (oracle : OracleOutcome)
    (fc avatarId : String) (decision : LLMDecision) (prev : AppState)
    (hfind : prev.avatars.find? (fun a => a.id == avatarId) = none) :
    executeDecision now oracle fc avatarId decision prev = prev := by
  unfold executeDecision
  rw [hfind]

/-- `(preResolve …).1` keeps the decision's action for every action other
than `interact_object` and `think`. -/
theorem preResolve_action_other (prev : AppState) (avatarId : String)
    (decision : LLMDecision) (oracle : OracleOutcome)
    (hni : decision.action ≠ "interact_object")
    (hnt : decision.action ≠ "think") :
    (preResolve prev avatarId decision oracle).1 = decision.action := by
  unfold preResolve
  rw [if_neg hni, if_neg hnt]

/-- Unfolded characterization of the conversation-lookup predicate. -/
theorem activeWith_iff (a b : String) (c : Conversation) :
    activeWith a b c = true ↔
      a ∈ c.participants ∧ b ∈ c.participants ∧ c.endTime = none := by
  unfold activeWith
  simp [and_assoc]

theorem activeWith_swap (a b : String) (c : Conversation) :
    activeWith a b c = activeWith b a c := by
  unfold activeWith
  rw [Bool.and_comm (decide (a ∈ c.participants))
    (decide (b ∈ c.participants))]

/-- Ending a conversation makes it inactive for every pair. -/
theorem activeWith_ended (x t : String) (now : ℝ) (c : Conversation) :
    activeWith x t { c with endTime := some now } = false := by
  unfold activeWith
  simp

/-- Generic preservation: if the resolver's branch changes no avatar, keeps
the acting avatar's conversation target, and rewrites the conversation list
without touching the active-conversation structure, the invariant survives
the resolution. -/
theorem exec_invariant_of_fields (now : ℝ) (oracle : OracleOutcome)
    (fc avatarId : String) (decision : LLMDecision) (prev : AppState)
    (ca : AvatarState) (r : SwitchResult)
    (hfind : prev.avatars.find? (fun a => a.id == avatarId) = some ca)
    (hnd : (prev.avatars.map (·.id)).Nodup)
    (hres : resolveSwitch now fc prev avatarId ca
      (preResolve prev avatarId decision oracle).1
      (preResolve prev avatarId decision oracle).2.1
      (preResolve prev avatarId decision oracle).2.2 = r)
    (havs : r.nextAvatars = prev.avatars)
    (htar : r.newConversationTarget = ca.conversationTarget)
    (hc1 : ∀ c' ∈ r.nextConversations, c'.endTime = none →
      ∃ c ∈ prev.conversations, c.endTime = none ∧
        c'.participants = c.participants)
    (hc2 : ∀ x t, r.nextConversations.countP (activeWith x t) =
      prev.conversations.countP (activeWith x t))
    (hinv : ConvInvariant prev) :
    ConvInvariant (executeDecision now oracle fc avatarId decision prev) := by
  have hca_mem : ca ∈ prev.avatars := List.mem_of_find?_eq_some hfind
  have hca_id : ca.id = avatarId := by simpa using List.find?_some hfind
  have hg : (resolveSwitch now fc prev avatarId ca
      (preResolve prev avatarId decision oracle).1
      (preResolve prev avatarId decision oracle).2.1
      (preResolve prev avatarId decision oracle).2.2).nextAvatars =
      prev.avatars.map (fun a => a) := by
    rw [hres, havs, List.map_id']
  have hexec := executeDecision_found now oracle fc avatarId decision prev
    ca (fun a => a) hfind hnd hg
  rw [hres] at hexec
  rw [hexec]
  refine ConvInvariant_transfer prev _ ?_ ?_ ?_ ?_ hinv
  · intro a' ha'
    dsimp only at ha'
    rw [List.mem_map] at ha'
    obtain ⟨a, ha, haeq⟩ := ha'
    by_cases hid : a.id = avatarId
    · rw [if_pos hid] at haeq
      have hae : a = ca := nodup_key_inj hnd ha hca_mem
        (hid.trans hca_id.symm)
      refine ⟨a, ha, ?_, ?_⟩
      · rw [← haeq]
        rfl
      · rw [← haeq]
        show r.newConversationTarget = a.conversationTarget
        rw [htar, hae]
    · rw [if_neg hid] at haeq
      exact ⟨a, ha, by rw [← haeq], by rw [← haeq]⟩
  · intro a ha
    by_cases hid : a.id = avatarId
    · have hae : a = ca := nodup_key_inj hnd ha hca_mem
        (hid.trans hca_id.symm)
      refine ⟨resolvedAvatarUpdate now prev.simulation.mode r
        (min 10000 (max 100
          (((preResolve prev avatarId decision oracle).2.1.bind
            (·.duration)).getD ca.settings.rateLimit))) a, ?_, rfl, ?_⟩
      · dsimp only
        rw [List.mem_map]
        exact ⟨a, ha, by rw [if_pos hid]⟩
      · show r.newConversationTarget = a.conversationTarget
        rw [htar, hae]
    · refine ⟨a, ?_, rfl, rfl⟩
      dsimp only
      rw [List.mem_map]
      exact ⟨a, ha, by rw [if_neg hid]⟩
  · intro c' hc' hact'
    dsimp only at hc'
    exact hc1 c' hc' hact'
  · intro x t
    dsimp only
    exact hc2 x t

/-- Under the invariant, `findIdx?` with the lookup predicate succeeds for
every avatar that holds a conversation target. -/
theorem findIdx_some_of_target (prev : AppState) (hinv : ConvInvariant prev)
    {ca : AvatarState} (hca_mem : ca ∈ prev.avatars) {tid : String}
    (hct : ca.conversationTarget = some tid) :
    ∃ j, prev.conversations.findIdx? (activeWith ca.id tid) = some j := by
  cases hF : prev.conversations.findIdx? (activeWith ca.id tid) with
  | some j => exact ⟨j, rfl⟩
  | none =>
    exfalso
    have hcount := hinv.2 ca hca_mem tid hct
    have hzero : prev.conversations.countP (activeWith ca.id tid) = 0 := by
      rw [List.countP_eq_zero]
      intro c hc
      rw [List.findIdx?_eq_none_iff] at hF
      rw [hF c hc]
      exact Bool.false_ne_true
    omega

/-- Under the invariant, an avatar with a conversation target has a partner
with the target id pointing back at it. -/
theorem partner_of_target (prev : AppState)
    (hnd : (prev.avatars.map (·.id)).Nodup) (hinv : ConvInvariant prev)
    {ca : AvatarState} (hca_mem : ca ∈ prev.avatars) {tid : String}
    (hct : ca.conversationTarget = some tid) {c0 : Conversation}
    (hc0 : c0 ∈ prev.conversations) (hact : activeWith ca.id tid c0 = true) :
    ∃ T ∈ prev.avatars, T.id = tid ∧ T.conversationTarget = some ca.id := by
  rw [activeWith_iff] at hact
  obtain ⟨hcain, htin, hend⟩ := hact
  obtain ⟨u, hu, v, hv, hparts, hne, huv, hvu⟩ := hinv.1 c0 hc0 hend
  have hcane : ca.id ≠ tid := target_ne_self prev hnd hinv hca_mem hct
  rw [hparts] at hcain htin
  simp only [List.mem_cons, List.not_mem_nil, or_false] at hcain htin
  rcases htin with htu | htv
  · refine ⟨u, hu, htu.symm, ?_⟩
    rcases hcain with hcu | hcv
    · exact absurd (hcu.trans htu.symm) hcane
    · rw [huv, ← hcv]
  · refine ⟨v, hv, htv.symm, ?_⟩
    rcases hcain with hcu | hcv
    · rw [hvu, ← hcu]
    · exact absurd (hcv.trans htv.symm) hcane

/-- Under the invariant, an active conversation that contains the id of a
target-holding avatar also contains the target (it is the unique pair
conversation of that avatar). -/
theorem active_conv_contains (prev : AppState)
    (hnd : (prev.avatars.map (·.id)).Nodup) (hinv : ConvInvariant prev)
    {w : AvatarState} (hw : w ∈ prev.avatars) {t : String}
    (hwt : w.conversationTarget = some t) {c' : Conversation}
    (hc' : c' ∈ prev.conversations) (hact' : c'.endTime = none)
    (hwid : w.id ∈ c'.participants) : activeWith w.id t c' = true := by
  obtain ⟨x, hx, y, hy, hparts, hne, hxy, hyx⟩ := hinv.1 c' hc' hact'
  rw [activeWith_iff]
  refine ⟨hwid, ?_, hact'⟩
  rw [hparts] at hwid ⊢
  simp only [List.mem_cons, List.not_mem_nil, or_false] at hwid ⊢
  rcases hwid with hwx | hwy
  · have hwe : w = x := nodup_key_inj hnd hw hx hwx
    rw [hwe, hxy] at hwt
    right
    exact (Option.some_inj.mp hwt).symm
  · have hwe : w = y := nodup_key_inj hnd hw hy hwy
    rw [hwe, hyx] at hwt
    left
    exact (Option.some_inj.mp hwt).symm

/-- The conversation list of a target-holding avatar splits around its
unique active pair conversation; the `mapIdx` update at the found index
rewrites exactly that conversation. -/
theorem active_pair_decomp (prev : AppState) (hinv : ConvInvariant prev)
    {ca : AvatarState} (hca_mem : ca ∈ prev.avatars) {tid : String}
    (hct : ca.conversationTarget = some tid) (f : Conversation → Conversation)
    {j : ℕ} (hF : prev.conversations.findIdx? (activeWith ca.id tid) = some j) :
    ∃ l1 c0 l2, prev.conversations = l1 ++ c0 :: l2 ∧
      activeWith ca.id tid c0 = true ∧
      (∀ y ∈ l1, activeWith ca.id tid y = false) ∧
      (∀ y ∈ l2, activeWith ca.id tid y = false) ∧
      (prev.conversations.mapIdx fun k c => if k = j then f c else c) =
        l1 ++ f c0 :: l2 := by
  obtain ⟨l1, c0, l2, hsplit, hlen, hpx, hl1, hmap⟩ :=
    mapIdx_update_findIdx? (activeWith ca.id tid) f prev.conversations j hF
  refine ⟨l1, c0, l2, hsplit, hpx, hl1, ?_, hmap⟩
  have hcount := hinv.2 ca hca_mem tid hct
  rw [hsplit, List.countP_append, List.countP_cons, hpx] at hcount
  have hl1z : l1.countP (activeWith ca.id tid) = 0 := by
    rw [List.countP_eq_zero]
    intro y hy
    rw [hl1 y hy]
    exact Bool.false_ne_true
  have hl2z : l2.countP (activeWith ca.id tid) = 0 := by
    simp at hcount
    omega
  intro y hy
  rw [List.countP_eq_zero] at hl2z
  exact Bool.eq_false_iff.mpr (hl2z y hy)

/-- `initiate_conversation` preserves the conversation invariant. -/
theorem exec_preserves_initiate (now : ℝ) (oracle : OracleOutcome)
    (fc avatarId : String) (decision : LLMDecision) (prev : AppState)
    (hact : decision.action = "initiate_conversation")
    (hnd : (prev.avatars.map (·.id)).Nodup)
    (hinv : ConvInvariant prev) :
    ConvInvariant (executeDecision now oracle fc avatarId decision prev) := by
  cases hfind : prev.avatars.find? (fun a => a.id == avatarId) with
  | none =>
    rw [executeDecision_not_found now oracle fc avatarId decision prev hfind]
    exact hinv
  | some ca =>
    have hca_mem : ca ∈ prev.avatars := List.mem_of_find?_eq_some hfind
    have hca_id : ca.id = avatarId := by simpa using List.find?_some hfind
    have hni : decision.action ≠ "interact_object" := by rw [hact]; decide
    have hnt : decision.action ≠ "think" := by rw [hact]; decide
    have hpre1 : (preResolve prev avatarId decision oracle).1 =
        "initiate_conversation" :=
      (preResolve_action_other prev avatarId decision oracle hni hnt).trans
        hact
    have hpre2 : (preResolve prev avatarId decision oracle).2.1 =
        decision.parameters := by
      rw [preResolve_params, if_neg hni]
    cases hT : decision.parameters.bind (·.targetId) with
    | none =>
      have hr : resolveSwitch now fc prev avatarId ca
          (preResolve prev avatarId decision oracle).1
          (preResolve prev avatarId decision oracle).2.1
          (preResolve prev avatarId decision oracle).2.2 =
          unchangedResult prev ca "idle"
            (annotate (preResolve prev avatarId decision oracle).2.2
              "(Missing parameters for initiate_conversation)") := by
        rw [hpre1, hpre2]
        unfold resolveSwitch
        rw [if_neg (by decide), if_neg (by decide), if_neg (by decide),
          if_pos rfl]
        dsimp only
        rw [hT]
      exact exec_invariant_of_fields now oracle fc avatarId decision prev ca
        _ hfind hnd hr rfl rfl (fun c hc h => ⟨c, hc, h, rfl⟩)
        (fun x t => rfl) hinv
    | some tid =>
      cases hM : decision.parameters.bind (·.message) with
      | none =>
        have hr : resolveSwitch now fc prev avatarId ca
            (preResolve prev avatarId decision oracle).1
            (preResolve prev avatarId decision oracle).2.1
            (preResolve prev avatarId decision oracle).2.2 =
            unchangedResult prev ca "idle"
              (annotate (preResolve prev avatarId decision oracle).2.2
                "(Missing parameters for initiate_conversation)") := by
          rw [hpre1, hpre2]
          unfold resolveSwitch
          rw [if_neg (by decide), if_neg (by decide), if_neg (by decide),
            if_pos rfl]
          dsimp only
          rw [hT, hM]
        exact exec_invariant_of_fields now oracle fc avatarId decision prev
          ca _ hfind hnd hr rfl rfl (fun c hc h => ⟨c, hc, h, rfl⟩)
          (fun x t => rfl) hinv
      | some msg =>
        by_cases hE : tid = "" ∨ msg = ""
        · have hr : resolveSwitch now fc prev avatarId ca
              (preResolve prev avatarId decision oracle).1
              (preResolve prev avatarId decision oracle).2.1
              (preResolve prev avatarId decision oracle).2.2 =
              unchangedResult prev ca "idle"
                (annotate (preResolve prev avatarId decision oracle).2.2
                  "(Missing parameters for initiate_conversation)") := by
            rw [hpre1, hpre2]
            unfold resolveSwitch
            rw [if_neg (by decide), if_neg (by decide), if_neg (by decide),
              if_pos rfl]
            dsimp only
            rw [hT, hM]
            dsimp only
            rw [if_pos hE]
          exact exec_invariant_of_fields now oracle fc avatarId decision prev
            ca _ hfind hnd hr rfl rfl (fun c hc h => ⟨c, hc, h, rfl⟩)
            (fun x t => rfl) hinv
        · by_cases hCT : ca.conversationTarget.isSome = true
          · have hr : resolveSwitch now fc prev avatarId ca
                (preResolve prev avatarId decision oracle).1
                (preResolve prev avatarId decision oracle).2.1
                (preResolve prev avatarId decision oracle).2.2 =
                unchangedResult prev ca "idle"
                  (annotate (preResolve prev avatarId decision oracle).2.2
                    "(Tried to initiate conversation while already in one)")
                := by
              rw [hpre1, hpre2]
              unfold resolveSwitch
              rw [if_neg (by decide), if_neg (by decide), if_neg (by decide),
                if_pos rfl]
              dsimp only
              rw [hT, hM]
              dsimp only
              rw [if_neg hE, if_pos hCT]
            exact exec_invariant_of_fields now oracle fc avatarId decision
              prev ca _ hfind hnd hr rfl rfl (fun c hc h => ⟨c, hc, h, rfl⟩)
              (fun x t => rfl) hinv
          · cases hF : prev.avatars.find? (fun a => a.id == tid) with
            | none =>
              have hr : resolveSwitch now fc prev avatarId ca
                  (preResolve prev avatarId decision oracle).1
                  (preResolve prev avatarId decision oracle).2.1
                  (preResolve prev avatarId decision oracle).2.2 =
                  unchangedResult prev ca "idle"
                    (annotate (preResolve prev avatarId decision oracle).2.2
                      ("(Target avatar " ++ tid ++ " invalid)")) := by
                rw [hpre1, hpre2]
                unfold resolveSwitch
                rw [if_neg (by decide), if_neg (by decide),
                  if_neg (by decide), if_pos rfl]
                dsimp only
                rw [hT, hM]
                dsimp only
                rw [if_neg hE, if_neg hCT, hF]
              exact exec_invariant_of_fields now oracle fc avatarId decision
                prev ca _ hfind hnd hr rfl rfl
                (fun c hc h => ⟨c, hc, h, rfl⟩) (fun x t => rfl) hinv
            | some targetAvatar =>
              by_cases hS : tid ≠ avatarId
              · by_cases hB : targetAvatar.conversationTarget.isSome = true
                · have hr : resolveSwitch now fc prev avatarId ca
                      (preResolve prev avatarId decision oracle).1
                      (preResolve prev avatarId decision oracle).2.1
                      (preResolve prev avatarId decision oracle).2.2 =
                      unchangedResult prev ca "idle"
                        (annotate
                          (preResolve prev avatarId decision oracle).2.2
                          ("(Target " ++ tid ++ " busy)")) := by
                    rw [hpre1, hpre2]
                    unfold resolveSwitch
                    rw [if_neg (by decide), if_neg (by decide),
                      if_neg (by decide), if_pos rfl]
                    dsimp only
                    rw [hT, hM]
                    dsimp only
                    rw [if_neg hE, if_neg hCT, hF]
                    dsimp only
                    rw [if_pos hS, if_pos hB]
                  exact exec_invariant_of_fields now oracle fc avatarId
                    decision prev ca _ hfind hnd hr rfl rfl
                    (fun c hc h => ⟨c, hc, h, rfl⟩) (fun x t => rfl) hinv
                · -- success: the new conversation is created
                  have hca_tar : ca.conversationTarget = none :=
                    Option.not_isSome_iff_eq_none.mp hCT
                  have hta_mem : targetAvatar ∈ prev.avatars :=
                    List.mem_of_find?_eq_some hF
                  have hta_id : targetAvatar.id = tid := by
                    simpa using List.find?_some hF
                  have hta_tar : targetAvatar.conversationTarget = none :=
                    Option.not_isSome_iff_eq_none.mp hB
                  have hr : resolveSwitch now fc prev avatarId ca
                      (preResolve prev avatarId decision oracle).1
                      (preResolve prev avatarId decision oracle).2.1
                      (preResolve prev avatarId decision oracle).2.2 =
                      { updateAction := "conversing",
                        finalThought :=
                          (preResolve prev avatarId decision oracle).2.2,
                        newPosition := ca.position,
                        newOrientation := ca.orientation,
                        newConversationTarget := some tid,
                        nextAvatars := prev.avatars.map fun a =>
                          if a.id = avatarId then
                            { a with conversationTarget := some tid,
                                     currentAction := some "conversing" }
                          else if a.id = tid then
                            { a with conversationTarget := some avatarId,
                                     currentAction := some "conversing" }
                          else a,
                        nextConversations := prev.conversations ++
                          [{ id := fc, participants := [avatarId, tid],
                             messages := [⟨avatarId, msg, now⟩],
                             startTime := now, endTime := none }] } := by
                    rw [hpre1, hpre2]
                    unfold resolveSwitch
                    rw [if_neg (by decide), if_neg (by decide),
                      if_neg (by decide), if_pos rfl]
                    dsimp only
                    rw [hT, hM]
                    dsimp only
                    rw [if_neg hE, if_neg hCT, hF]
                    dsimp only
                    rw [if_pos hS, if_neg hB]
                  have hg : (resolveSwitch now fc prev avatarId ca
                      (preResolve prev avatarId decision oracle).1
                      (preResolve prev avatarId decision oracle).2.1
                      (preResolve prev avatarId decision oracle).2.2
                      ).nextAvatars =
                      prev.avatars.map fun a =>
                        if a.id = avatarId then
                          { a with conversationTarget := some tid,
                                   currentAction := some "conversing" }
                        else if a.id = tid then
                          { a with conversationTarget := some avatarId,
                                   currentAction := some "conversing" }
                        else a := by
                    rw [hr]
                  have hexec := executeDecision_found now oracle fc avatarId
                    decision prev ca _ hfind hnd hg
                  rw [hexec]
                  set R := resolveSwitch now fc prev avatarId ca
                    (preResolve prev avatarId decision oracle).1
                    (preResolve prev avatarId decision oracle).2.1
                    (preResolve prev avatarId decision oracle).2.2 with hRdef
                  have hRtar : R.newConversationTarget = some tid := by
                    rw [hr]
                  have hRconvs : R.nextConversations = prev.conversations ++
                      [{ id := fc, participants := [avatarId, tid],
                         messages := [⟨avatarId, msg, now⟩],
                         startTime := now, endTime := none }] := by
                    rw [hr]
                  have hta_ne : targetAvatar.id ≠ avatarId := by
                    rw [hta_id]
                    exact hS
                  have hSne : avatarId ≠ tid := fun h => hS h.symm
                  constructor
                  · intro c' hc' hact'
                    dsimp only at hc'
                    rw [hRconvs, List.mem_append] at hc'
                    rcases hc' with hold | hnew
                    · obtain ⟨x, hx, y, hy, hparts, hne, hxy, hyx⟩ :=
                        hinv.1 c' hold hact'
                      have hxa : x.id ≠ avatarId := by
                        intro h
                        have hxca : x = ca := nodup_key_inj hnd hx hca_mem
                          (h.trans hca_id.symm)
                        rw [hxca, hca_tar] at hxy
                        exact Option.noConfusion hxy
                      have hxt : x.id ≠ tid := by
                        intro h
                        have hxta : x = targetAvatar := nodup_key_inj hnd hx
                          hta_mem (h.trans hta_id.symm)
                        rw [hxta, hta_tar] at hxy
                        exact Option.noConfusion hxy
                      have hya : y.id ≠ avatarId := by
                        intro h
                        have hyca : y = ca := nodup_key_inj hnd hy hca_mem
                          (h.trans hca_id.symm)
                        rw [hyca, hca_tar] at hyx
                        exact Option.noConfusion hyx
                      have hyt : y.id ≠ tid := by
                        intro h
                        have hyta : y = targetAvatar := nodup_key_inj hnd hy
                          hta_mem (h.trans hta_id.symm)
                        rw [hyta, hta_tar] at hyx
                        exact Option.noConfusion hyx
                      refine ⟨x, ?_, y, ?_, hparts, hne, hxy, hyx⟩
                      · dsimp only
                        rw [List.mem_map]
                        refine ⟨x, hx, ?_⟩
                        rw [if_neg hxa, if_neg hxa, if_neg hxt]
                      · dsimp only
                        rw [List.mem_map]
                        refine ⟨y, hy, ?_⟩
                        rw [if_neg hya, if_neg hya, if_neg hyt]
                    · rw [List.mem_singleton] at hnew
                      subst hnew
                      dsimp only
                      simp only [List.mem_map]
                      refine ⟨_, ⟨ca, hca_mem, rfl⟩, _,
                        ⟨targetAvatar, hta_mem, rfl⟩, ?_, ?_, ?_, ?_⟩
                      · rw [if_pos hca_id, resolvedAvatarUpdate_id,
                          if_pos hca_id, if_neg hta_ne, if_neg hta_ne,
                          if_pos hta_id]
                        dsimp only
                        rw [hca_id, hta_id]
                      · rw [if_pos hca_id, resolvedAvatarUpdate_id,
                          if_pos hca_id, if_neg hta_ne, if_neg hta_ne,
                          if_pos hta_id]
                        dsimp only
                        rw [hca_id, hta_id]
                        exact hSne
                      · rw [if_pos hca_id, if_neg hta_ne, if_neg hta_ne,
                          if_pos hta_id]
                        have hltar : ∀ z, (resolvedAvatarUpdate now
                            prev.simulation.mode R
                            (min 10000 (max 100
                              (((preResolve prev avatarId decision
                                oracle).2.1.bind (·.duration)).getD
                                ca.settings.rateLimit))) z).conversationTarget
                            = R.newConversationTarget := fun _ => rfl
                        rw [hltar, hRtar]
                        dsimp only
                        rw [hta_id]
                      · rw [if_pos hca_id, resolvedAvatarUpdate_id,
                          if_pos hca_id, if_neg hta_ne, if_neg hta_ne,
                          if_pos hta_id]
                        dsimp only
                        rw [hca_id]
                  · intro a' ha' t ht
                    dsimp only at ha'
                    rw [List.mem_map] at ha'
                    obtain ⟨a, ha, haeq⟩ := ha'
                    subst haeq
                    dsimp only at ht ⊢
                    rw [hRconvs]
                    simp only [List.countP_append, List.countP_cons,
                      List.countP_nil]
                    by_cases hidA : a.id = avatarId
                    · rw [if_pos hidA] at ht ⊢
                      have ht2 : R.newConversationTarget = some t := ht
                      rw [hRtar] at ht2
                      have htt : tid = t := Option.some_inj.mp ht2
                      subst htt
                      rw [resolvedAvatarUpdate_id, if_pos hidA]
                      dsimp only
                      rw [hidA]
                      have hz : prev.conversations.countP
                          (activeWith avatarId tid) = 0 := by
                        rw [List.countP_eq_zero]
                        intro c hc hcp
                        rw [activeWith_iff] at hcp
                        have hnotin := no_active_conv_of_free prev hnd hinv
                          hca_mem hca_tar hc hcp.2.2
                        rw [hca_id] at hnotin
                        exact hnotin hcp.1
                      have hone : activeWith avatarId tid
                          { id := fc, participants := [avatarId, tid],
                            messages := [⟨avatarId, msg, now⟩],
                            startTime := now, endTime := none } = true := by
                        rw [activeWith_iff]
                        refine ⟨?_, ?_, rfl⟩ <;> simp
                      rw [hz, hone]
                      simp
                    · rw [if_neg hidA] at ht ⊢
                      by_cases hidT : a.id = tid
                      · rw [if_neg hidA, if_pos hidT] at ht ⊢
                        have ht2 : (some avatarId : Option String) = some t :=
                          ht
                        have htt : avatarId = t := Option.some_inj.mp ht2
                        subst htt
                        dsimp only
                        rw [hidT]
                        have hz : prev.conversations.countP
                            (activeWith tid avatarId) = 0 := by
                          rw [List.countP_eq_zero]
                          intro c hc hcp
                          rw [activeWith_iff] at hcp
                          have hnotin := no_active_conv_of_free prev hnd hinv
                            hta_mem hta_tar hc hcp.2.2
                          rw [hta_id] at hnotin
                          exact hnotin hcp.1
                        have hone : activeWith tid avatarId
                            { id := fc, participants := [avatarId, tid],
                              messages := [⟨avatarId, msg, now⟩],
                              startTime := now, endTime := none } = true := by
                          rw [activeWith_iff]
                          refine ⟨?_, ?_, rfl⟩ <;> simp
                        rw [hz, hone]
                        simp
                      · rw [if_neg hidA, if_neg hidT] at ht ⊢
                        have hold := hinv.2 a ha t ht
                        have hzero : activeWith a.id t
                            { id := fc, participants := [avatarId, tid],
                              messages := [⟨avatarId, msg, now⟩],
                              startTime := now, endTime := none } = false := by
                          rw [Bool.eq_false_iff]
                          intro hcp
                          rw [activeWith_iff] at hcp
                          have hin := hcp.1
                          simp only [List.mem_cons, List.not_mem_nil,
                            or_false] at hin
                          rcases hin with h | h
                          · exact hidA h
                          · exact hidT h
                        rw [hold, hzero]
                        simp
              · have hS2 : tid = avatarId := not_not.mp (by exact hS)
                have hr : resolveSwitch now fc prev avatarId ca
                    (preResolve prev avatarId decision oracle).1
                    (preResolve prev avatarId decision oracle).2.1
                    (preResolve prev avatarId decision oracle).2.2 =
                    unchangedResult prev ca "idle"
                      (annotate (preResolve prev avatarId decision oracle).2.2
                        ("(Target avatar " ++ tid ++ " invalid)")) := by
                  rw [hpre1, hpre2]
                  unfold resolveSwitch
                  rw [if_neg (by decide), if_neg (by decide),
                    if_neg (by decide), if_pos rfl]
                  dsimp only
                  rw [hT, hM]
                  dsimp only
                  rw [if_neg hE, if_neg hCT, hF]
                  dsimp only
                  rw [if_neg hS]
                exact exec_invariant_of_fields now oracle fc avatarId decision
                  prev ca _ hfind hnd hr rfl rfl
                  (fun c hc h => ⟨c, hc, h, rfl⟩) (fun x t => rfl) hinv

/-- `disengage_conversation` preserves the conversation invariant. -/
theorem exec_preserves_disengage (now : ℝ) (oracle : OracleOutcome)
    (fc avatarId : String) (decision : LLMDecision) (prev : AppState)
    (hact : decision.action = "disengage_conversation")
    (hnd : (prev.avatars.map (·.id)).Nodup)
    (hinv : ConvInvariant prev) :
    ConvInvariant (executeDecision now oracle fc avatarId decision prev) := by
  cases hfind : prev.avatars.find? (fun a => a.id == avatarId) with
  | none =>
    rw [executeDecision_not_found now oracle fc avatarId decision prev hfind]
    exact hinv
  | some ca =>
    have hca_mem : ca ∈ prev.avatars := List.mem_of_find?_eq_some hfind
    have hca_id : ca.id = avatarId := by simpa using List.find?_some hfind
    have hni : decision.action ≠ "interact_object" := by rw [hact]; decide
    have hnt : decision.action ≠ "think" := by rw [hact]; decide
    have hpre1 : (preResolve prev avatarId decision oracle).1 =
        "disengage_conversation" :=
      (preResolve_action_other prev avatarId decision oracle hni hnt).trans
        hact
    have hpre2 : (preResolve prev avatarId decision oracle).2.1 =
        decision.parameters := by
      rw [preResolve_params, if_neg hni]
    cases hT : decision.parameters.bind (·.targetId) with
    | none =>
      have hr : resolveSwitch now fc prev avatarId ca
          (preResolve prev avatarId decision oracle).1
          (preResolve prev avatarId decision oracle).2.1
          (preResolve prev avatarId decision oracle).2.2 =
          unchangedResult prev ca
            (if ca.conversationTarget = none then "idle"
             else "disengage_conversation")
            (annotate (preResolve prev avatarId decision oracle).2.2
              "(Cannot disengage, not in conversation or missing target)")
          := by
        rw [hpre1, hpre2]
        unfold resolveSwitch
        rw [if_neg (by decide), if_neg (by decide), if_neg (by decide),
          if_neg (by decide), if_neg (by decide), if_pos rfl]
        dsimp only
        rw [hT]
      exact exec_invariant_of_fields now oracle fc avatarId decision prev ca
        _ hfind hnd hr rfl rfl (fun c hc h => ⟨c, hc, h, rfl⟩)
        (fun x t => rfl) hinv
    | some tid =>
      by_cases hc : tid ≠ "" ∧ ca.conversationTarget = some tid
      · have hct : ca.conversationTarget = some tid := hc.2
        cases hF : prev.conversations.findIdx? (activeWith avatarId tid) with
        | none =>
          exfalso
          obtain ⟨j, hj⟩ := findIdx_some_of_target prev hinv hca_mem hct
          rw [hca_id] at hj
          rw [hj] at hF
          exact Option.noConfusion hF
        | some j =>
          have hF' : prev.conversations.findIdx? (activeWith ca.id tid) =
              some j := by
            rw [hca_id]
            exact hF
          obtain ⟨l1, c0, l2, hsplit, hpx, hl1, hl2, hmap⟩ :=
            active_pair_decomp prev hinv hca_mem hct
              (fun c => { c with endTime := some now }) hF'
          have hmap2 : (prev.conversations.mapIdx fun i c =>
              if i = j then { c with endTime := some now } else c) =
              l1 ++ { c0 with endTime := some now } :: l2 := hmap
          have hc0_mem : c0 ∈ prev.conversations := by
            rw [hsplit]
            exact List.mem_append_right _ (List.mem_cons_self _ _)
          have hend0 : c0.endTime = none :=
            ((activeWith_iff _ _ _).mp hpx).2.2
          obtain ⟨T, hT_mem, hT_id, hT_tar⟩ :=
            partner_of_target prev hnd hinv hca_mem hct hc0_mem hpx
          have htid_ne : avatarId ≠ tid := by
            rw [← hca_id]
            exact target_ne_self prev hnd hinv hca_mem hct
          have hr : resolveSwitch now fc prev avatarId ca
              (preResolve prev avatarId decision oracle).1
              (preResolve prev avatarId decision oracle).2.1
              (preResolve prev avatarId decision oracle).2.2 =
              { updateAction := "idle",
                finalThought := (preResolve prev avatarId decision oracle).2.2,
                newPosition := ca.position,
                newOrientation := ca.orientation,
                newConversationTarget := none,
                nextAvatars := prev.avatars.map fun a =>
                  if a.id = avatarId ∨ a.id = tid then
                    { a with currentAction := none,
                             conversationTarget := none }
                  else a,
                nextConversations := prev.conversations.mapIdx fun i c =>
                  if i = j then { c with endTime := some now } else c } := by
            rw [hpre1, hpre2]
            unfold resolveSwitch
            rw [if_neg (by decide), if_neg (by decide), if_neg (by decide),
              if_neg (by decide), if_neg (by decide), if_pos rfl]
            dsimp only
            rw [hT]
            dsimp only
            rw [if_pos hc, hF]
          have hg : (resolveSwitch now fc prev avatarId ca
              (preResolve prev avatarId decision oracle).1
              (preResolve prev avatarId decision oracle).2.1
              (preResolve prev avatarId decision oracle).2.2).nextAvatars =
              prev.avatars.map fun a =>
                if a.id = avatarId ∨ a.id = tid then
                  { a with currentAction := none, conversationTarget := none }
                else a := by
            rw [hr]
          have hexec := executeDecision_found now oracle fc avatarId decision
            prev ca _ hfind hnd hg
          rw [hexec]
          set R := resolveSwitch now fc prev avatarId ca
            (preResolve prev avatarId decision oracle).1
            (preResolve prev avatarId decision oracle).2.1
            (preResolve prev avatarId decision oracle).2.2 with hRdef
          have hRtar : R.newConversationTarget = none := by rw [hr]
          have hRconvs : R.nextConversations =
              l1 ++ { c0 with endTime := some now } :: l2 := by
            rw [hr]
            exact hmap2
          constructor
          · intro c' hc' hact'
            dsimp only at hc'
            rw [hRconvs, List.mem_append, List.mem_cons] at hc'
            have hmem_prev : c' ∈ prev.conversations := by
              rcases hc' with h | h | h
              · rw [hsplit]
                exact List.mem_append_left _ h
              · exfalso
                rw [h] at hact'
                exact Option.noConfusion hact'
              · rw [hsplit]
                exact List.mem_append_right _ (List.mem_cons_of_mem _ h)
            have hinactive : activeWith ca.id tid c' = false := by
              rcases hc' with h | h | h
              · exact hl1 c' h
              · exfalso
                rw [h] at hact'
                exact Option.noConfusion hact'
              · exact hl2 c' h
            have hnoA : ca.id ∉ c'.participants := by
              intro hin
              have h2 := active_conv_contains prev hnd hinv hca_mem hct
                hmem_prev hact' hin
              exact Bool.false_ne_true (hinactive.symm.trans h2)
            have hnoT : tid ∉ c'.participants := by
              intro hin
              have h2 := active_conv_contains prev hnd hinv hT_mem hT_tar
                hmem_prev hact' (by rw [hT_id]; exact hin)
              rw [hT_id, activeWith_swap] at h2
              exact Bool.false_ne_true (hinactive.symm.trans h2)
            obtain ⟨x, hx, y, hy, hparts, hne, hxy, hyx⟩ :=
              hinv.1 c' hmem_prev hact'
            have hxin : x.id ∈ c'.participants := by
              rw [hparts]
              exact List.mem_cons_self _ _
            have hyin : y.id ∈ c'.participants := by
              rw [hparts]
              exact List.mem_cons_of_mem _ (List.mem_cons_self _ _)
            have hxa : x.id ≠ avatarId := by
              intro h
              rw [← hca_id] at h
              exact hnoA (h ▸ hxin)
            have hxt : x.id ≠ tid := fun h => hnoT (h ▸ hxin)
            have hya : y.id ≠ avatarId := by
              intro h
              rw [← hca_id] at h
              exact hnoA (h ▸ hyin)
            have hyt : y.id ≠ tid := fun h => hnoT (h ▸ hyin)
            refine ⟨x, ?_, y, ?_, hparts, hne, hxy, hyx⟩
            · dsimp only
              rw [List.mem_map]
              refine ⟨x, hx, ?_⟩
              rw [if_neg hxa, if_neg (not_or.mpr ⟨hxa, hxt⟩)]
            · dsimp only
              rw [List.mem_map]
              refine ⟨y, hy, ?_⟩
              rw [if_neg hya, if_neg (not_or.mpr ⟨hya, hyt⟩)]
          · intro a' ha' t ht
            dsimp only at ha'
            rw [List.mem_map] at ha'
            obtain ⟨a, ha, haeq⟩ := ha'
            subst haeq
            dsimp only at ht ⊢
            by_cases hidA : a.id = avatarId
            · rw [if_pos hidA] at ht ⊢
              have ht2 : R.newConversationTarget = some t := ht
              rw [hRtar] at ht2
              exact Option.noConfusion ht2
            · rw [if_neg hidA] at ht ⊢
              by_cases hidOr : a.id = avatarId ∨ a.id = tid
              · rw [if_pos hidOr] at ht ⊢
                have ht2 : (none : Option String) = some t := ht
                exact Option.noConfusion ht2
              · rw [if_neg hidOr] at ht ⊢
                have hOr := not_or.mp hidOr
                have hold := hinv.2 a ha t ht
                rw [hsplit] at hold
                simp only [List.countP_append, List.countP_cons] at hold
                rw [hRconvs]
                simp only [List.countP_append, List.countP_cons]
                obtain ⟨u, hu, v, hv, hparts0, hne0, huv0, hvu0⟩ :=
                  hinv.1 c0 hc0_mem hend0
                have hpx' := (activeWith_iff _ _ _).mp hpx
                have hain : ca.id ∈ c0.participants := hpx'.1
                have htin : tid ∈ c0.participants := hpx'.2.1
                have hcane : ca.id ≠ tid :=
                  target_ne_self prev hnd hinv hca_mem hct
                have hp0 : activeWith a.id t c0 = false := by
                  rw [Bool.eq_false_iff]
                  intro hcp
                  rw [activeWith_iff] at hcp
                  have hin := hcp.1
                  rw [hparts0] at hin hain htin
                  simp only [List.mem_cons, List.not_mem_nil, or_false]
                    at hin hain htin
                  rcases hain with hau | hav
                  · rcases htin with htu | htv
                    · exact hcane (hau.trans htu.symm)
                    · rcases hin with h | h
                      · exact hOr.1 (h.trans (hau.symm.trans hca_id))
                      · exact hOr.2 (h.trans htv.symm)
                  · rcases htin with htu | htv
                    · rcases hin with h | h
                      · exact hOr.2 (h.trans htu.symm)
                      · exact hOr.1 (h.trans (hav.symm.trans hca_id))
                    · exact hcane (hav.trans htv.symm)
                have hpend : activeWith a.id t
                    { c0 with endTime := some now } = false :=
                  activeWith_ended a.id t now c0
                rw [hp0] at hold
                rw [hpend]
                simp only [Bool.false_eq_true, if_false] at hold ⊢
                omega
      · have hr : resolveSwitch now fc prev avatarId ca
            (preResolve prev avatarId decision oracle).1
            (preResolve prev avatarId decision oracle).2.1
            (preResolve prev avatarId decision oracle).2.2 =
            unchangedResult prev ca
              (if ca.conversationTarget = none then "idle"
               else "disengage_conversation")
              (annotate (preResolve prev avatarId decision oracle).2.2
                "(Cannot disengage, not in conversation or missing target)")
            := by
          rw [hpre1, hpre2]
          unfold resolveSwitch
          rw [if_neg (by decide), if_neg (by decide), if_neg (by decide),
            if_neg (by decide), if_neg (by decide), if_pos rfl]
          dsimp only
          rw [hT]
          dsimp only
          rw [if_neg hc]
        exact exec_invariant_of_fields now oracle fc avatarId decision prev
          ca _ hfind hnd hr rfl rfl (fun c hc h => ⟨c, hc, h, rfl⟩)
          (fun x t => rfl) hinv

/-- A `continue_conversation` whose stated target matches the acting
avatar's stored conversation target (with nonempty target and message)
preserves the conversation invariant. -/
theorem exec_preserves_continue_valid (now : ℝ) (oracle : OracleOutcome)
    (fc avatarId : String) (decision : LLMDecision) (prev : AppState)
    (hact : decision.action = "continue_conversation") (tid msg : String)
    (hT : decision.parameters.bind (·.targetId) = some tid)
    (hM : decision.parameters.bind (·.message) = some msg)
    (htne : tid ≠ "") (hmne : msg ≠ "")
    (hmatch : ∀ a ∈ prev.avatars, a.id = avatarId →
      a.conversationTarget = some tid)
    (hnd : (prev.avatars.map (·.id)).Nodup)
    (hinv : ConvInvariant prev) :
    ConvInvariant (executeDecision now oracle fc avatarId decision prev) := by
  cases hfind : prev.avatars.find? (fun a => a.id == avatarId) with
  | none =>
    rw [executeDecision_not_found now oracle fc avatarId decision prev hfind]
    exact hinv
  | some ca =>
    have hca_mem : ca ∈ prev.avatars := List.mem_of_find?_eq_some hfind
    have hca_id : ca.id = avatarId := by simpa using List.find?_some hfind
    have hni : decision.action ≠ "interact_object" := by rw [hact]; decide
    have hnt : decision.action ≠ "think" := by rw [hact]; decide
    have hpre1 : (preResolve prev avatarId decision oracle).1 =
        "continue_conversation" :=
      (preResolve_action_other prev avatarId decision oracle hni hnt).trans
        hact
    have hpre2 : (preResolve prev avatarId decision oracle).2.1 =
        decision.parameters := by
      rw [preResolve_params, if_neg hni]
    have hct : ca.conversationTarget = some tid :=
      hmatch ca hca_mem hca_id
    have hcond : tid ≠ "" ∧ msg ≠ "" ∧ ca.conversationTarget = some tid :=
      ⟨htne, hmne, hct⟩
    cases hF : prev.conversations.findIdx? (activeWith avatarId tid) with
    | none =>
      exfalso
      obtain ⟨j, hj⟩ := findIdx_some_of_target prev hinv hca_mem hct
      rw [hca_id] at hj
      rw [hj] at hF
      exact Option.noConfusion hF
    | some j =>
      have hF' : prev.conversations.findIdx? (activeWith ca.id tid) =
          some j := by
        rw [hca_id]
        exact hF
      obtain ⟨l1, c0, l2, hsplit, hpx, hl1, hl2, hmap⟩ :=
        active_pair_decomp prev hinv hca_mem hct
          (fun c => { c with messages :=
                          jsSliceLast 19 c.messages ++
                            [⟨avatarId, msg, now⟩] }) hF'
      have hmap2 : (prev.conversations.mapIdx fun i c =>
          if i = j then
            { c with messages :=
                       jsSliceLast 19 c.messages ++
                         [⟨avatarId, msg, now⟩] }
          else c) =
          l1 ++ { c0 with messages :=
                            jsSliceLast 19 c0.messages ++
                              [⟨avatarId, msg, now⟩] } :: l2 :=
        hmap
      have hc0_mem : c0 ∈ prev.conversations := by
        rw [hsplit]
        exact List.mem_append_right _ (List.mem_cons_self _ _)
      have hr : resolveSwitch now fc prev avatarId ca
          (preResolve prev avatarId decision oracle).1
          (preResolve prev avatarId decision oracle).2.1
          (preResolve prev avatarId decision oracle).2.2 =
          { updateAction := "conversing",
            finalThought := (preResolve prev avatarId decision oracle).2.2,
            newPosition := ca.position,
            newOrientation := ca.orientation,
            newConversationTarget := ca.conversationTarget,
            nextAvatars := prev.avatars,
            nextConversations := prev.conversations.mapIdx fun i c =>
              if i = j then
                { c with messages :=
                           jsSliceLast 19 c.messages ++
                             [⟨avatarId, msg, now⟩] }
              else c } := by
        rw [hpre1, hpre2]
        unfold resolveSwitch
        rw [if_neg (by decide), if_neg (by decide), if_neg (by decide),
          if_neg (by decide), if_pos rfl]
        dsimp only
        rw [hT, hM]
        dsimp only
        rw [if_pos hcond, hF]
      have hone : ∀ c' ∈ (prev.conversations.mapIdx fun i c =>
          if i = j then
            { c with messages :=
                       jsSliceLast 19 c.messages ++
                         [⟨avatarId, msg, now⟩] }
          else c), c'.endTime = none →
          ∃ c ∈ prev.conversations, c.endTime = none ∧
            c'.participants = c.participants := by
        intro c' hc' h
        rw [hmap2, List.mem_append, List.mem_cons] at hc'
        rcases hc' with hl | he | hl2m
        · exact ⟨c', by rw [hsplit]; exact List.mem_append_left _ hl, h, rfl⟩
        · subst he
          exact ⟨c0, hc0_mem, h, rfl⟩
        · refine ⟨c', ?_, h, rfl⟩
          rw [hsplit]
          exact List.mem_append_right _ (List.mem_cons_of_mem _ hl2m)
      have hcount : ∀ x t, (prev.conversations.mapIdx fun i c =>
          if i = j then
            { c with messages :=
                       jsSliceLast 19 c.messages ++
                         [⟨avatarId, msg, now⟩] }
          else c).countP (activeWith x t) =
          prev.conversations.countP (activeWith x t) := by
        intro x t
        rw [hmap2]
        conv_rhs => rw [hsplit]
        simp only [List.countP_append, List.countP_cons]
        rfl
      exact exec_invariant_of_fields now oracle fc avatarId decision prev ca
        _ hfind hnd hr rfl rfl hone hcount hinv

/-- A `continue_conversation` decision whose target matches the acting
avatar's stored partner, with a nonempty message. -/
def c1GoodContinue : LLMDecision :=
  { action := "continue_conversation",
    parameters := some { targetId := some "B", message := some "hi" } }

/-- C1 (amended): over worlds with duplicate-free avatar ids satisfying the
conversation invariant (for all non-ended Conversations both participant
avatars exist with `conversationTarget` pointing at each other; for all
avatars with a `conversationTarget`, exactly one non-ended Conversation
holds that pair), the invariant is preserved by resolving an
`initiate_conversation` or `disengage_conversation` decision, by resolving
a `continue_conversation` decision whose nonempty stated target matches the
acting avatar's stored `conversationTarget` and which carries a nonempty
message, and by `removeAvatar` — but not by an arbitrary
`continue_conversation` (see the counterexample). -/
theorem c1_conversation_invariant (now : ℝ) (oracle : OracleOutcome)
    (fc avatarId aid : String) (decision : LLMDecision) (prev : AppState)
    (hnd : (prev.avatars.map (·.id)).Nodup)
    (hinv : ConvInvariant prev) :
    (decision.action = "initiate_conversation" →
      ConvInvariant (executeDecision now oracle fc avatarId decision prev)) ∧
    (decision.action = "disengage_conversation" →
      ConvInvariant (executeDecision now oracle fc avatarId decision prev)) ∧
    (decision.action = "continue_conversation" →
      (∃ tid msg, decision.parameters.bind (·.targetId) = some tid ∧
        decision.parameters.bind (·.message) = some msg ∧
        tid ≠ "" ∧ msg ≠ "" ∧
        ∀ a ∈ prev.avatars, a.id = avatarId →
          a.conversationTarget = some tid) →
      ConvInvariant (executeDecision now oracle fc avatarId decision prev)) ∧
    ConvInvariant (removeAvatar now aid prev) := by
  refine ⟨?_, ?_, ?_, ?_⟩
  · intro h
    exact exec_preserves_initiate now oracle fc avatarId decision prev h hnd
      hinv
  · intro h
    exact exec_preserves_disengage now oracle fc avatarId decision prev h hnd
      hinv
  · rintro h ⟨tid, msg, hT, hM, htne, hmne, hmatch⟩
    exact exec_preserves_continue_valid now oracle fc avatarId decision prev
      h tid msg hT hM htne hmne hmatch hnd hinv
  · exact removeAvatar_preserves now aid prev hnd hinv

/-- C1 witness: the amended preservation theorem applied to the concrete
two-avatar world, for a valid continue and an avatar removal. -/
theorem c1_conversation_invariant_witness :
    ConvInvariant (executeDecision 0 (.success "") "w" "A" c1GoodContinue
      c1State) ∧
    ConvInvariant (removeAvatar 0 "A" c1State) := by
  have h := c1_conversation_invariant 0 (.success "") "w" "A" "A"
    c1GoodContinue c1State (by decide) c1State_invariant
  exact ⟨h.2.2.1 rfl ⟨"B", "hi", rfl, rfl, by decide, by decide, by decide⟩,
    h.2.2.2⟩

end
